import Mathlib

/-!
Verification of the format-mode overlay of `serde_test` (`src/configure.rs`).

The overlay consists of two zero-size wrappers, `Readable<T>` and `Compact<T>`,
which implement the full `Serializer` / `Deserializer` capability hierarchy for
a wrapped engine, forwarding every operation verbatim except `is_human_readable`,
and re-wrapping every nested value, builder, visitor, accessor and seed in the
same tag variant.

Embedding conventions:
* A tag variant is a `Mode` (`Mode.readable` / `Mode.compact`), corresponding to
  the two wrapper types generated by the single macro `impl_serializer!` /
  `impl_deserializer!` (instantiated at lines 528-529 and 963-964 of the source).
* Applying the wrapper constructor `Readable(x)` / `Compact(x)` to a handed-over
  value, seed, deserializer or accessor handle is modelled by `Mode.wrap` on the
  inductive `Tagged`.
* Each Rust trait is a Lean structure of functions; a trait object with `&mut`
  methods (the seven serialize builders, `SeqAccess`, `MapAccess`) is a record
  holding its current state together with state-passing methods.
* Machine integers are carried opaquely (`Int` for the signed widths, `Nat` for
  the unsigned ones); `f32`/`f64` payloads are carried as their raw bit patterns
  (`Nat`), since the overlay never inspects any scalar payload.
* Rust `Result<A, E>` is `Except E A`.
-/

/-- The two tag variants of the overlay: `Readable` (flag `true`) and
`Compact` (flag `false`). -/
inductive Mode : Type
  | readable
  | compact
deriving DecidableEq, Repr

/-- The fixed boolean each tag variant reports from `is_human_readable`. -/
def Mode.flag : Mode → Bool
  | .readable => true
  | .compact => false

/-- A value/seed/handle possibly wrapped in `Readable(..)` / `Compact(..)`
constructors (arbitrarily deeply, since `Readable<Readable<T>>` etc. are
legal types in the source). -/
inductive Tagged (α : Type) : Type
  | plain : α → Tagged α
  | readable : Tagged α → Tagged α
  | compact : Tagged α → Tagged α
deriving DecidableEq, Repr

/-- Applying the wrapper constructor of tag variant `m` to a handed-over
value/handle: `Readable(v)` resp. `Compact(v)`. -/
def Mode.wrap {α : Type} : Mode → Tagged α → Tagged α
  | .readable, v => Tagged.readable v
  | .compact, v => Tagged.compact v

/-- A Rust `Iterator` with item type `V`: a state together with a `next`
function (drawing one element updates the state). -/
structure Iter (ι V : Type) where
  state : ι
  next : ι → Option (V × ι)

/-- `Iterator::map`: lazy per-pull mapping; drawing one element from the mapped
iterator draws exactly one element from the source. -/
def Iter.mapIt {ι V W : Type} (f : V → W) (it : Iter ι V) : Iter ι W where
  state := it.state
  next := fun s => (it.next s).map (fun p => (f p.1, p.2))

/-- The builder object shape shared by `SerializeSeq`, `SerializeTuple`,
`SerializeTupleStruct` and `SerializeTupleVariant` (all four traits expose one
value-consuming method and `end`; the macro generates the four impls with
identical bodies, source lines 370-444).  `state` is the in-progress builder
state, `element` embeds `serialize_element`/`serialize_field`, `fin` embeds
`end`. -/
structure SerializeSeq (σ α Ok Err : Type) where
  state : σ
  element : σ → Tagged α → Except Err σ
  fin : σ → Except Err Ok

/-- The `SerializeMap` builder object (source lines 446-478): `key`, `value`
and `entry` embed `serialize_key`, `serialize_value`, `serialize_entry`. -/
structure SerializeMap (σ α Ok Err : Type) where
  state : σ
  key : σ → Tagged α → Except Err σ
  value : σ → Tagged α → Except Err σ
  entry : σ → Tagged α → Tagged α → Except Err σ
  fin : σ → Except Err Ok

/-- The builder object shape shared by `SerializeStruct` and
`SerializeStructVariant` (source lines 480-524): `field` embeds
`serialize_field`, `skip` embeds `skip_field`. -/
structure SerializeStruct (σ α Ok Err : Type) where
  state : σ
  field : σ → String → Tagged α → Except Err σ
  skip : σ → String → Except Err σ
  fin : σ → Except Err Ok

/-- Invoking `serialize_element` on a sequence/tuple builder object. -/
def SerializeSeq.push {σ α Ok Err : Type} (b : SerializeSeq σ α Ok Err)
    (v : Tagged α) : Except Err (SerializeSeq σ α Ok Err) :=
  (b.element b.state v).map (fun st => { b with state := st })

/-- Invoking `end` on a sequence/tuple builder object. -/
def SerializeSeq.stop {σ α Ok Err : Type} (b : SerializeSeq σ α Ok Err) :
    Except Err Ok :=
  b.fin b.state

/-- Invoking `serialize_key` on a map builder object. -/
def SerializeMap.pushKey {σ α Ok Err : Type} (b : SerializeMap σ α Ok Err)
    (v : Tagged α) : Except Err (SerializeMap σ α Ok Err) :=
  (b.key b.state v).map (fun st => { b with state := st })

/-- Invoking `serialize_value` on a map builder object. -/
def SerializeMap.pushValue {σ α Ok Err : Type} (b : SerializeMap σ α Ok Err)
    (v : Tagged α) : Except Err (SerializeMap σ α Ok Err) :=
  (b.value b.state v).map (fun st => { b with state := st })

/-- Invoking `serialize_entry` on a map builder object. -/
def SerializeMap.pushEntry {σ α Ok Err : Type} (b : SerializeMap σ α Ok Err)
    (k v : Tagged α) : Except Err (SerializeMap σ α Ok Err) :=
  (b.entry b.state k v).map (fun st => { b with state := st })

/-- Invoking `end` on a map builder object. -/
def SerializeMap.stop {σ α Ok Err : Type} (b : SerializeMap σ α Ok Err) :
    Except Err Ok :=
  b.fin b.state

/-- Invoking `serialize_field` on a struct/struct-variant builder object. -/
def SerializeStruct.pushField {σ α Ok Err : Type} (b : SerializeStruct σ α Ok Err)
    (name : String) (v : Tagged α) : Except Err (SerializeStruct σ α Ok Err) :=
  (b.field b.state name v).map (fun st => { b with state := st })

/-- Invoking `skip_field` on a struct/struct-variant builder object. -/
def SerializeStruct.skipField {σ α Ok Err : Type} (b : SerializeStruct σ α Ok Err)
    (name : String) : Except Err (SerializeStruct σ α Ok Err) :=
  (b.skip b.state name).map (fun st => { b with state := st })

/-- Invoking `end` on a struct/struct-variant builder object. -/
def SerializeStruct.stop {σ α Ok Err : Type} (b : SerializeStruct σ α Ok Err) :
    Except Err Ok :=
  b.fin b.state

/-- Bundle of the auxiliary types of a serialization engine: its `Ok` and
`Error` associated types, the states of its seven builder associated types,
and the states of the iterators fed to `collect_seq` / `collect_map`. -/
structure SP : Type 1 where
  Ok : Type
  Err : Type
  Sq : Type
  St : Type
  Sts : Type
  Stv : Type
  Sm : Type
  Sst : Type
  Ssv : Type
  Is : Type
  Im : Type

/-- The `serde::Serializer` trait surface consumed and exposed by the overlay,
at value type `Tagged α` (every value argument a caller can pass is a possibly
tagged value).  Field names follow the Rust method names. -/
structure Serializer (α : Type) (P : SP) : Type where
  is_human_readable : Bool
  serialize_bool : Bool → Except P.Err P.Ok
  serialize_i8 : Int → Except P.Err P.Ok
  serialize_i16 : Int → Except P.Err P.Ok
  serialize_i32 : Int → Except P.Err P.Ok
  serialize_i64 : Int → Except P.Err P.Ok
  serialize_i128 : Int → Except P.Err P.Ok
  serialize_u8 : Nat → Except P.Err P.Ok
  serialize_u16 : Nat → Except P.Err P.Ok
  serialize_u32 : Nat → Except P.Err P.Ok
  serialize_u64 : Nat → Except P.Err P.Ok
  serialize_u128 : Nat → Except P.Err P.Ok
  serialize_f32 : Nat → Except P.Err P.Ok
  serialize_f64 : Nat → Except P.Err P.Ok
  serialize_char : Char → Except P.Err P.Ok
  serialize_str : String → Except P.Err P.Ok
  serialize_bytes : List Nat → Except P.Err P.Ok
  serialize_unit_struct : String → Except P.Err P.Ok
  serialize_unit : Except P.Err P.Ok
  serialize_unit_variant : String → Nat → String → Except P.Err P.Ok
  serialize_newtype_struct : String → Tagged α → Except P.Err P.Ok
  serialize_newtype_variant : String → Nat → String → Tagged α → Except P.Err P.Ok
  serialize_none : Except P.Err P.Ok
  serialize_some : Tagged α → Except P.Err P.Ok
  serialize_seq : Option Nat → Except P.Err (SerializeSeq P.Sq α P.Ok P.Err)
  serialize_tuple : Nat → Except P.Err (SerializeSeq P.St α P.Ok P.Err)
  serialize_tuple_struct : String → Nat → Except P.Err (SerializeSeq P.Sts α P.Ok P.Err)
  serialize_tuple_variant :
    String → Nat → String → Nat → Except P.Err (SerializeSeq P.Stv α P.Ok P.Err)
  serialize_map : Option Nat → Except P.Err (SerializeMap P.Sm α P.Ok P.Err)
  serialize_struct : String → Nat → Except P.Err (SerializeStruct P.Sst α P.Ok P.Err)
  serialize_struct_variant :
    String → Nat → String → Nat → Except P.Err (SerializeStruct P.Ssv α P.Ok P.Err)
  collect_seq : Iter P.Is (Tagged α) → Except P.Err P.Ok
  collect_map : Iter P.Im (Tagged α × Tagged α) → Except P.Err P.Ok
  collect_str : String → Except P.Err P.Ok

/-- The `SerializeSeq`/`SerializeTuple`/`SerializeTupleStruct`/
`SerializeTupleVariant` impls for `Readable<S>` / `Compact<S>` (source lines
370-444): delegate the element to the inner builder with the value re-wrapped
in the same tag variant; `end` delegates verbatim. -/
def wrapSeq {σ α Ok Err : Type} (m : Mode) (b : SerializeSeq σ α Ok Err) :
    SerializeSeq σ α Ok Err where
  state := b.state
  element := fun st v => b.element st (m.wrap v)
  fin := b.fin

/-- The `SerializeMap` impl for `Readable<S>` / `Compact<S>` (source lines
446-478): keys and values are re-wrapped in the same tag variant before
delegating; `end` delegates verbatim. -/
def wrapMap {σ α Ok Err : Type} (m : Mode) (b : SerializeMap σ α Ok Err) :
    SerializeMap σ α Ok Err where
  state := b.state
  key := fun st v => b.key st (m.wrap v)
  value := fun st v => b.value st (m.wrap v)
  entry := fun st k v => b.entry st (m.wrap k) (m.wrap v)
  fin := b.fin

/-- The `SerializeStruct`/`SerializeStructVariant` impls for `Readable<S>` /
`Compact<S>` (source lines 480-524): the field value is re-wrapped in the same
tag variant; `skip_field` and `end` delegate verbatim. -/
def wrapStruct {σ α Ok Err : Type} (m : Mode) (b : SerializeStruct σ α Ok Err) :
    SerializeStruct σ α Ok Err where
  state := b.state
  field := fun st name v => b.field st name (m.wrap v)
  skip := b.skip
  fin := b.fin

/-- The `Serializer` impl generated by `impl_serializer!` for `Readable<S>`
(`m = .readable`) and `Compact<S>` (`m = .compact`), source lines 199-529:
`is_human_readable` reports the tag's fixed flag; all scalar methods forward
verbatim; single-value-wrapping methods re-wrap the nested value in the same
tag variant; aggregate-begin methods delegate and re-wrap the returned builder
(by `Result::map`); `collect_seq`/`collect_map` re-wrap drawn elements lazily;
`collect_str` forwards verbatim. -/
def wrapSerializer {α : Type} {P : SP} (m : Mode) (s : Serializer α P) :
    Serializer α P where
  is_human_readable := m.flag
  serialize_bool := s.serialize_bool
  serialize_i8 := s.serialize_i8
  serialize_i16 := s.serialize_i16
  serialize_i32 := s.serialize_i32
  serialize_i64 := s.serialize_i64
  serialize_i128 := s.serialize_i128
  serialize_u8 := s.serialize_u8
  serialize_u16 := s.serialize_u16
  serialize_u32 := s.serialize_u32
  serialize_u64 := s.serialize_u64
  serialize_u128 := s.serialize_u128
  serialize_f32 := s.serialize_f32
  serialize_f64 := s.serialize_f64
  serialize_char := s.serialize_char
  serialize_str := s.serialize_str
  serialize_bytes := s.serialize_bytes
  serialize_unit_struct := s.serialize_unit_struct
  serialize_unit := s.serialize_unit
  serialize_unit_variant := s.serialize_unit_variant
  serialize_newtype_struct := fun name v => s.serialize_newtype_struct name (m.wrap v)
  serialize_newtype_variant := fun name i var v =>
    s.serialize_newtype_variant name i var (m.wrap v)
  serialize_none := s.serialize_none
  serialize_some := fun v => s.serialize_some (m.wrap v)
  serialize_seq := fun len => (s.serialize_seq len).map (wrapSeq m)
  serialize_tuple := fun len => (s.serialize_tuple len).map (wrapSeq m)
  serialize_tuple_struct := fun name len =>
    (s.serialize_tuple_struct name len).map (wrapSeq m)
  serialize_tuple_variant := fun name i var len =>
    (s.serialize_tuple_variant name i var len).map (wrapSeq m)
  serialize_map := fun len => (s.serialize_map len).map (wrapMap m)
  serialize_struct := fun name len => (s.serialize_struct name len).map (wrapStruct m)
  serialize_struct_variant := fun name i var len =>
    (s.serialize_struct_variant name i var len).map (wrapStruct m)
  collect_seq := fun it => s.collect_seq (it.mapIt m.wrap)
  collect_map := fun it => s.collect_map (it.mapIt (fun kv => (m.wrap kv.1, m.wrap kv.2)))
  collect_str := s.collect_str

/-- The `Serialize` impls for `Readable<T>` / `Compact<T>` (source lines
91-115) together with the serialization of the underlying untagged value:
`Readable(v)` serializes `v` against `Readable(serializer)`, and likewise for
`Compact`; a plain payload `a` serializes by its own (abstract) `Serialize`
impl `serA`. -/
def serializeTagged {α : Type} {P : SP}
    (serA : α → Serializer α P → Except P.Err P.Ok) :
    Tagged α → Serializer α P → Except P.Err P.Ok
  | .plain a, s => serA a s
  | .readable v, s => serializeTagged serA v (wrapSerializer .readable s)
  | .compact v, s => serializeTagged serA v (wrapSerializer .compact s)

/-- Bundle of the auxiliary types of the deserialization side: `W` is the
visitor's `Value` associated type, `Err` the `Error` associated type, `Dh`,
`Rh`, `Kh`, `Eh`, `Sd` the base types of the deserializer / sequence-accessor /
map-accessor / enum-accessor / seed handles handed across the interface, and
`Sa`, `Ma` the states of `SeqAccess` / `MapAccess` objects. -/
structure DP : Type 1 where
  W : Type
  Err : Type
  Dh : Type
  Rh : Type
  Kh : Type
  Eh : Type
  Sd : Type
  Sa : Type
  Ma : Type

/-- The `serde::de::Visitor` trait surface (the overlay's impl is at source
lines 653-851).  Scalar-acceptance methods carry their payloads; the
nested-acceptance methods `visit_some`, `visit_newtype_struct`, `visit_seq`,
`visit_map`, `visit_enum` receive possibly tagged handles.  `expecting` is the
delegated format message. -/
structure Visitor (Q : DP) : Type where
  expecting : String
  visit_bool : Bool → Except Q.Err Q.W
  visit_i8 : Int → Except Q.Err Q.W
  visit_i16 : Int → Except Q.Err Q.W
  visit_i32 : Int → Except Q.Err Q.W
  visit_i64 : Int → Except Q.Err Q.W
  visit_i128 : Int → Except Q.Err Q.W
  visit_u8 : Nat → Except Q.Err Q.W
  visit_u16 : Nat → Except Q.Err Q.W
  visit_u32 : Nat → Except Q.Err Q.W
  visit_u64 : Nat → Except Q.Err Q.W
  visit_u128 : Nat → Except Q.Err Q.W
  visit_f32 : Nat → Except Q.Err Q.W
  visit_f64 : Nat → Except Q.Err Q.W
  visit_char : Char → Except Q.Err Q.W
  visit_str : String → Except Q.Err Q.W
  visit_borrowed_str : String → Except Q.Err Q.W
  visit_string : String → Except Q.Err Q.W
  visit_bytes : List Nat → Except Q.Err Q.W
  visit_borrowed_bytes : List Nat → Except Q.Err Q.W
  visit_byte_buf : List Nat → Except Q.Err Q.W
  visit_none : Except Q.Err Q.W
  visit_some : Tagged Q.Dh → Except Q.Err Q.W
  visit_unit : Except Q.Err Q.W
  visit_newtype_struct : Tagged Q.Dh → Except Q.Err Q.W
  visit_seq : Tagged Q.Rh → Except Q.Err Q.W
  visit_map : Tagged Q.Kh → Except Q.Err Q.W
  visit_enum : Tagged Q.Eh → Except Q.Err Q.W

/-- The `Visitor` impl for `Readable<D>` / `Compact<D>` (source lines 653-851):
every scalar-acceptance method and `expecting` forward verbatim; the nested
deserializer / accessor handle of each nested-acceptance method is re-wrapped
in the same tag variant before delegating. -/
def wrapVisitor {Q : DP} (m : Mode) (v : Visitor Q) : Visitor Q where
  expecting := v.expecting
  visit_bool := v.visit_bool
  visit_i8 := v.visit_i8
  visit_i16 := v.visit_i16
  visit_i32 := v.visit_i32
  visit_i64 := v.visit_i64
  visit_i128 := v.visit_i128
  visit_u8 := v.visit_u8
  visit_u16 := v.visit_u16
  visit_u32 := v.visit_u32
  visit_u64 := v.visit_u64
  visit_u128 := v.visit_u128
  visit_f32 := v.visit_f32
  visit_f64 := v.visit_f64
  visit_char := v.visit_char
  visit_str := v.visit_str
  visit_borrowed_str := v.visit_borrowed_str
  visit_string := v.visit_string
  visit_bytes := v.visit_bytes
  visit_borrowed_bytes := v.visit_borrowed_bytes
  visit_byte_buf := v.visit_byte_buf
  visit_none := v.visit_none
  visit_some := fun d => v.visit_some (m.wrap d)
  visit_unit := v.visit_unit
  visit_newtype_struct := fun d => v.visit_newtype_struct (m.wrap d)
  visit_seq := fun a => v.visit_seq (m.wrap a)
  visit_map := fun a => v.visit_map (m.wrap a)
  visit_enum := fun a => v.visit_enum (m.wrap a)

/-- The `serde::Deserializer` trait surface (the overlay's impl is at source
lines 546-651).  Every dispatch method takes the caller's visitor; the
named-shape methods additionally carry names / field lists / arities. -/
structure Deserializer (Q : DP) : Type where
  is_human_readable : Bool
  deserialize_any : Visitor Q → Except Q.Err Q.W
  deserialize_bool : Visitor Q → Except Q.Err Q.W
  deserialize_u8 : Visitor Q → Except Q.Err Q.W
  deserialize_u16 : Visitor Q → Except Q.Err Q.W
  deserialize_u32 : Visitor Q → Except Q.Err Q.W
  deserialize_u64 : Visitor Q → Except Q.Err Q.W
  deserialize_u128 : Visitor Q → Except Q.Err Q.W
  deserialize_i8 : Visitor Q → Except Q.Err Q.W
  deserialize_i16 : Visitor Q → Except Q.Err Q.W
  deserialize_i32 : Visitor Q → Except Q.Err Q.W
  deserialize_i64 : Visitor Q → Except Q.Err Q.W
  deserialize_i128 : Visitor Q → Except Q.Err Q.W
  deserialize_f32 : Visitor Q → Except Q.Err Q.W
  deserialize_f64 : Visitor Q → Except Q.Err Q.W
  deserialize_char : Visitor Q → Except Q.Err Q.W
  deserialize_str : Visitor Q → Except Q.Err Q.W
  deserialize_string : Visitor Q → Except Q.Err Q.W
  deserialize_bytes : Visitor Q → Except Q.Err Q.W
  deserialize_byte_buf : Visitor Q → Except Q.Err Q.W
  deserialize_option : Visitor Q → Except Q.Err Q.W
  deserialize_unit : Visitor Q → Except Q.Err Q.W
  deserialize_seq : Visitor Q → Except Q.Err Q.W
  deserialize_map : Visitor Q → Except Q.Err Q.W
  deserialize_identifier : Visitor Q → Except Q.Err Q.W
  deserialize_ignored_any : Visitor Q → Except Q.Err Q.W
  deserialize_unit_struct : String → Visitor Q → Except Q.Err Q.W
  deserialize_newtype_struct : String → Visitor Q → Except Q.Err Q.W
  deserialize_tuple : Nat → Visitor Q → Except Q.Err Q.W
  deserialize_tuple_struct : String → Nat → Visitor Q → Except Q.Err Q.W
  deserialize_struct : String → List String → Visitor Q → Except Q.Err Q.W
  deserialize_enum : String → List String → Visitor Q → Except Q.Err Q.W

/-- The `Deserializer` impl generated by `impl_deserializer!` for
`Readable<D>` (`m = .readable`) and `Compact<D>` (`m = .compact`), source lines
546-651: `is_human_readable` reports the tag's fixed flag; every dispatch
method forwards to the inner engine's same method with the caller's visitor
re-wrapped in the same tag variant; names, field lists and arities pass through
unchanged. -/
def wrapDeserializer {Q : DP} (m : Mode) (d : Deserializer Q) : Deserializer Q where
  is_human_readable := m.flag
  deserialize_any := fun v => d.deserialize_any (wrapVisitor m v)
  deserialize_bool := fun v => d.deserialize_bool (wrapVisitor m v)
  deserialize_u8 := fun v => d.deserialize_u8 (wrapVisitor m v)
  deserialize_u16 := fun v => d.deserialize_u16 (wrapVisitor m v)
  deserialize_u32 := fun v => d.deserialize_u32 (wrapVisitor m v)
  deserialize_u64 := fun v => d.deserialize_u64 (wrapVisitor m v)
  deserialize_u128 := fun v => d.deserialize_u128 (wrapVisitor m v)
  deserialize_i8 := fun v => d.deserialize_i8 (wrapVisitor m v)
  deserialize_i16 := fun v => d.deserialize_i16 (wrapVisitor m v)
  deserialize_i32 := fun v => d.deserialize_i32 (wrapVisitor m v)
  deserialize_i64 := fun v => d.deserialize_i64 (wrapVisitor m v)
  deserialize_i128 := fun v => d.deserialize_i128 (wrapVisitor m v)
  deserialize_f32 := fun v => d.deserialize_f32 (wrapVisitor m v)
  deserialize_f64 := fun v => d.deserialize_f64 (wrapVisitor m v)
  deserialize_char := fun v => d.deserialize_char (wrapVisitor m v)
  deserialize_str := fun v => d.deserialize_str (wrapVisitor m v)
  deserialize_string := fun v => d.deserialize_string (wrapVisitor m v)
  deserialize_bytes := fun v => d.deserialize_bytes (wrapVisitor m v)
  deserialize_byte_buf := fun v => d.deserialize_byte_buf (wrapVisitor m v)
  deserialize_option := fun v => d.deserialize_option (wrapVisitor m v)
  deserialize_unit := fun v => d.deserialize_unit (wrapVisitor m v)
  deserialize_seq := fun v => d.deserialize_seq (wrapVisitor m v)
  deserialize_map := fun v => d.deserialize_map (wrapVisitor m v)
  deserialize_identifier := fun v => d.deserialize_identifier (wrapVisitor m v)
  deserialize_ignored_any := fun v => d.deserialize_ignored_any (wrapVisitor m v)
  deserialize_unit_struct := fun name v => d.deserialize_unit_struct name (wrapVisitor m v)
  deserialize_newtype_struct := fun name v =>
    d.deserialize_newtype_struct name (wrapVisitor m v)
  deserialize_tuple := fun len v => d.deserialize_tuple len (wrapVisitor m v)
  deserialize_tuple_struct := fun name len v =>
    d.deserialize_tuple_struct name len (wrapVisitor m v)
  deserialize_struct := fun name fields v =>
    d.deserialize_struct name fields (wrapVisitor m v)
  deserialize_enum := fun name variants v =>
    d.deserialize_enum name variants (wrapVisitor m v)

/-- A `SeqAccess` object (the overlay's impl is at source lines 853-869):
state plus `next_element_seed` (taking a possibly tagged seed handle) and
`size_hint`. -/
structure SeqAccess (Q : DP) : Type where
  state : Q.Sa
  next_element_seed : Q.Sa → Tagged Q.Sd → Except Q.Err (Option Q.W × Q.Sa)
  size_hint : Q.Sa → Option Nat

/-- Invoking `next_element_seed` on a `SeqAccess` object. -/
def SeqAccess.nextElement {Q : DP} (a : SeqAccess Q) (seed : Tagged Q.Sd) :
    Except Q.Err (Option Q.W × SeqAccess Q) :=
  (a.next_element_seed a.state seed).map (fun p => (p.1, { a with state := p.2 }))

/-- Invoking `size_hint` on a `SeqAccess` object. -/
def SeqAccess.hint {Q : DP} (a : SeqAccess Q) : Option Nat :=
  a.size_hint a.state

/-- The `SeqAccess` impl for `Readable<D>` / `Compact<D>` (source lines
853-869): the seed is re-wrapped in the same tag variant before delegating;
`size_hint` forwards verbatim. -/
def wrapSeqAccess {Q : DP} (m : Mode) (a : SeqAccess Q) : SeqAccess Q where
  state := a.state
  next_element_seed := fun st seed => a.next_element_seed st (m.wrap seed)
  size_hint := a.size_hint

/-- A `MapAccess` object (the overlay's impl is at source lines 871-906):
state plus `next_key_seed`, `next_value_seed`, `next_entry_seed` and
`size_hint`. -/
structure MapAccess (Q : DP) : Type where
  state : Q.Ma
  next_key_seed : Q.Ma → Tagged Q.Sd → Except Q.Err (Option Q.W × Q.Ma)
  next_value_seed : Q.Ma → Tagged Q.Sd → Except Q.Err (Q.W × Q.Ma)
  next_entry_seed :
    Q.Ma → Tagged Q.Sd → Tagged Q.Sd → Except Q.Err (Option (Q.W × Q.W) × Q.Ma)
  size_hint : Q.Ma → Option Nat

/-- Invoking `next_key_seed` on a `MapAccess` object. -/
def MapAccess.nextKey {Q : DP} (a : MapAccess Q) (seed : Tagged Q.Sd) :
    Except Q.Err (Option Q.W × MapAccess Q) :=
  (a.next_key_seed a.state seed).map (fun p => (p.1, { a with state := p.2 }))

/-- Invoking `next_value_seed` on a `MapAccess` object. -/
def MapAccess.nextValue {Q : DP} (a : MapAccess Q) (seed : Tagged Q.Sd) :
    Except Q.Err (Q.W × MapAccess Q) :=
  (a.next_value_seed a.state seed).map (fun p => (p.1, { a with state := p.2 }))

/-- Invoking `next_entry_seed` on a `MapAccess` object. -/
def MapAccess.nextEntry {Q : DP} (a : MapAccess Q) (kseed vseed : Tagged Q.Sd) :
    Except Q.Err (Option (Q.W × Q.W) × MapAccess Q) :=
  (a.next_entry_seed a.state kseed vseed).map (fun p => (p.1, { a with state := p.2 }))

/-- The `MapAccess` impl for `Readable<D>` / `Compact<D>` (source lines
871-906): every seed argument is re-wrapped in the same tag variant before
delegating; `size_hint` forwards verbatim. -/
def wrapMapAccess {Q : DP} (m : Mode) (a : MapAccess Q) : MapAccess Q where
  state := a.state
  next_key_seed := fun st seed => a.next_key_seed st (m.wrap seed)
  next_value_seed := fun st seed => a.next_value_seed st (m.wrap seed)
  next_entry_seed := fun st kseed vseed =>
    a.next_entry_seed st (m.wrap kseed) (m.wrap vseed)
  size_hint := a.size_hint

/-- A `VariantAccess` object (the overlay's impl is at source lines 925-959):
consumed by value; `tuple_variant` and `struct_variant` take the caller's
visitor. -/
structure VariantAccess (Q : DP) : Type where
  unit_variant : Except Q.Err Unit
  newtype_variant_seed : Tagged Q.Sd → Except Q.Err Q.W
  tuple_variant : Nat → Visitor Q → Except Q.Err Q.W
  struct_variant : List String → Visitor Q → Except Q.Err Q.W

/-- The `VariantAccess` impl for `Readable<D>` / `Compact<D>` (source lines
925-959): `unit_variant` forwards verbatim; the seed of
`newtype_variant_seed` and the visitors of `tuple_variant` / `struct_variant`
are re-wrapped in the same tag variant before delegating. -/
def wrapVariantAccess {Q : DP} (m : Mode) (a : VariantAccess Q) : VariantAccess Q where
  unit_variant := a.unit_variant
  newtype_variant_seed := fun seed => a.newtype_variant_seed (m.wrap seed)
  tuple_variant := fun len v => a.tuple_variant len (wrapVisitor m v)
  struct_variant := fun fields v => a.struct_variant fields (wrapVisitor m v)

/-- An `EnumAccess` object (the overlay's impl is at source lines 908-923):
`variant_seed` resolves the variant from a seed and returns the variant value
together with a `VariantAccess` object for the payload. -/
structure EnumAccess (Q : DP) : Type where
  variant_seed : Tagged Q.Sd → Except Q.Err (Q.W × VariantAccess Q)

/-- The `EnumAccess` impl for `Readable<D>` / `Compact<D>` (source lines
908-923): the seed is re-wrapped in the same tag variant before delegating,
and on success the variant-accessor returned by the inner engine is re-wrapped
in the same tag variant; the variant value passes through unchanged. -/
def wrapEnumAccess {Q : DP} (m : Mode) (a : EnumAccess Q) : EnumAccess Q where
  variant_seed := fun seed =>
    (a.variant_seed (m.wrap seed)).map (fun p => (p.1, wrapVariantAccess m p.2))

/-- The `DeserializeSeed` impls for `Readable<T>` / `Compact<T>` (source lines
155-181): a tagged seed with inner behavior `run` deserializes by handing the
inner seed the engine re-wrapped in the same tag variant. -/
def taggedSeedDeserialize {Q : DP} {τ : Type} (m : Mode)
    (run : Deserializer Q → Except Q.Err τ) (d : Deserializer Q) :
    Except Q.Err τ :=
  run (wrapDeserializer m d)

/-- The `Deserialize::deserialize` impls for `Readable<T>` / `Compact<T>`
(source lines 117-153): run `T`'s deserialization (`deT`) against the engine
wrapped in the same tag variant and wrap the produced value back in the tag
(a tagged value is modelled as a `Mode × τ` pair). -/
def taggedDeserialize {Q : DP} {τ : Type} (m : Mode)
    (deT : Deserializer Q → Except Q.Err τ) (d : Deserializer Q) :
    Except Q.Err (Mode × τ) :=
  (deT (wrapDeserializer m d)).map (fun t => (m, t))

/-- The `Deserialize::deserialize_in_place` impls for `Readable<T>` /
`Compact<T>` (source lines 128-133 and 147-152): run `T`'s in-place
deserialization (`deTip`, state-passing on the payload) against the engine
wrapped in the same tag variant, writing through into the existing tag's
payload; the tag variant of the destination is fixed by the impl's own
variant `m`. -/
def taggedDeserializeInPlace {Q : DP} {τ : Type} (m : Mode)
    (deTip : Deserializer Q → τ → Except Q.Err τ) (d : Deserializer Q)
    (place : Mode × τ) : Except Q.Err (Mode × τ) :=
  (deTip (wrapDeserializer m d) place.2).map (fun t => (m, t))

/-!
## Deep value model

To settle trace-level claims (identical operation sequences, mode propagation
through arbitrary nesting, idempotent double-wrapping) we instantiate the
abstract interface with a deep value type `DVal` covering all seven aggregate
shapes, and a fuel-indexed trace-recording engine.  `DVal.probe` models a value
whose `Serialize` impl branches on `is_human_readable` (it serializes the flag
it observes), as in the doc-test `Example` type of the source (lines 26-37) and
the mode-recording test engine the spec describes.
-/

/-- Deep serializable values: one constructor per value shape the serde data
model distinguishes (representative scalar payloads, option, newtype shapes,
and all seven aggregate shapes), plus `probe`, a value that serializes the
`is_human_readable` flag it observes. -/
inductive DVal : Type
  | probe : DVal
  | boolV : Bool → DVal
  | intV : Int → DVal
  | strV : String → DVal
  | unitV : DVal
  | noneV : DVal
  | someV : DVal → DVal
  | newtypeStructV : String → DVal → DVal
  | newtypeVariantV : String → Nat → String → DVal → DVal
  | seqV : List DVal → DVal
  | tupleV : List DVal → DVal
  | tupleStructV : String → List DVal → DVal
  | tupleVariantV : String → Nat → String → List DVal → DVal
  | mapV : List (DVal × DVal) → DVal
  | structV : String → List (String × DVal) → DVal
  | structVariantV : String → Nat → String → List (String × DVal) → DVal

/-- Begin-push-end driver for the four sequence/tuple-shaped aggregates:
push every element (untagged, as a `Serialize` impl hands its own fields) and
invoke `end`. -/
def runSeqShape {σ : Type} {P : SP}
    (b0 : Except P.Err (SerializeSeq σ DVal P.Ok P.Err)) (vs : List DVal) :
    Except P.Err P.Ok := do
  let b ← b0
  let b ← vs.foldlM (fun b v => b.push (.plain v)) b
  b.stop

/-- Begin-push-end driver for maps: each pair is written as
`serialize_key` then `serialize_value`, then `end`. -/
def runMapShape {σ : Type} {P : SP}
    (b0 : Except P.Err (SerializeMap σ DVal P.Ok P.Err))
    (kvs : List (DVal × DVal)) : Except P.Err P.Ok := do
  let b ← b0
  let b ← kvs.foldlM (fun b kv => do
    let b ← b.pushKey (.plain kv.1)
    b.pushValue (.plain kv.2)) b
  b.stop

/-- Begin-push-end driver for structs and struct variants: each named field is
written with `serialize_field`, then `end`. -/
def runStructShape {σ : Type} {P : SP}
    (b0 : Except P.Err (SerializeStruct σ DVal P.Ok P.Err))
    (fs : List (String × DVal)) : Except P.Err P.Ok := do
  let b ← b0
  let b ← fs.foldlM (fun b f => b.pushField f.1 (.plain f.2)) b
  b.stop

/-- Canonical serde-conformant serialization of a deep value against an
engine: each shape invokes the corresponding engine operation, handing nested
values onward untagged (tagging happens only through the overlay or through
explicit `Readable(..)` / `Compact(..)` wrapping of the value itself). -/
def serValue {P : SP} : DVal → Serializer DVal P → Except P.Err P.Ok
  | .probe, s => s.serialize_bool s.is_human_readable
  | .boolV b, s => s.serialize_bool b
  | .intV n, s => s.serialize_i64 n
  | .strV t, s => s.serialize_str t
  | .unitV, s => s.serialize_unit
  | .noneV, s => s.serialize_none
  | .someV v, s => s.serialize_some (.plain v)
  | .newtypeStructV name v, s => s.serialize_newtype_struct name (.plain v)
  | .newtypeVariantV name i var v, s =>
      s.serialize_newtype_variant name i var (.plain v)
  | .seqV vs, s => runSeqShape (s.serialize_seq (some vs.length)) vs
  | .tupleV vs, s => runSeqShape (s.serialize_tuple vs.length) vs
  | .tupleStructV name vs, s => runSeqShape (s.serialize_tuple_struct name vs.length) vs
  | .tupleVariantV name i var vs, s =>
      runSeqShape (s.serialize_tuple_variant name i var vs.length) vs
  | .mapV kvs, s => runMapShape (s.serialize_map (some kvs.length)) kvs
  | .structV name fs, s => runStructShape (s.serialize_struct name fs.length) fs
  | .structVariantV name i var fs, s =>
      runStructShape (s.serialize_struct_variant name i var fs.length) fs

/-- Serialization of a possibly tagged deep value: the `Serialize` impls for
`Readable<T>` / `Compact<T>` (source lines 91-115) re-wrap the engine in the
same tag variant and recurse; a plain value serializes canonically. -/
def serTV {P : SP} : Tagged DVal → Serializer DVal P → Except P.Err P.Ok
  | .plain d, s => serValue d s
  | .readable v, s => serTV v (wrapSerializer .readable s)
  | .compact v, s => serTV v (wrapSerializer .compact s)

mutual
/-- `true` iff the value contains no `probe`, i.e. no part of its
serialization logic branches on the mode flag. -/
def probeFree : DVal → Bool
  | .probe => false
  | .boolV _ => true
  | .intV _ => true
  | .strV _ => true
  | .unitV => true
  | .noneV => true
  | .someV v => probeFree v
  | .newtypeStructV _ v => probeFree v
  | .newtypeVariantV _ _ _ v => probeFree v
  | .seqV vs => probeFreeList vs
  | .tupleV vs => probeFreeList vs
  | .tupleStructV _ vs => probeFreeList vs
  | .tupleVariantV _ _ _ vs => probeFreeList vs
  | .mapV kvs => probeFreePairs kvs
  | .structV _ fs => probeFreeFields fs
  | .structVariantV _ _ _ fs => probeFreeFields fs

/-- `probeFree` on every element of a list. -/
def probeFreeList : List DVal → Bool
  | [] => true
  | v :: vs => probeFree v && probeFreeList vs

/-- `probeFree` on both components of every pair. -/
def probeFreePairs : List (DVal × DVal) → Bool
  | [] => true
  | kv :: r => probeFree kv.1 && probeFree kv.2 && probeFreePairs r

/-- `probeFree` on the value of every named field. -/
def probeFreeFields : List (String × DVal) → Bool
  | [] => true
  | f :: r => probeFree f.2 && probeFreeFields r
end

/-- `probeFree` lifted through the tag constructors. -/
def probeFreeT : Tagged DVal → Bool
  | .plain d => probeFree d
  | .readable v => probeFreeT v
  | .compact v => probeFreeT v

/-- Events a trace-recording engine emits: one per engine operation, carrying
the operation's arguments (so a trace is exactly the sequence of operations
the engine observed, with their arguments). -/
inductive Ev : Type
  | bool : Bool → Ev
  | i64 : Int → Ev
  | str : String → Ev
  | unitEv : Ev
  | noneEv : Ev
  | someEv : Ev
  | newtypeStructEv : String → Ev
  | newtypeVariantEv : String → Nat → String → Ev
  | beginSeq : Option Nat → Ev
  | beginTuple : Nat → Ev
  | beginTupleStruct : String → Nat → Ev
  | beginTupleVariant : String → Nat → String → Nat → Ev
  | beginMap : Option Nat → Ev
  | beginStruct : String → Nat → Ev
  | beginStructVariant : String → Nat → String → Nat → Ev
  | elemEv : Ev
  | keyEv : Ev
  | valueEv : Ev
  | fieldEv : String → Ev
  | skipEv : String → Ev
  | endEv : Ev
deriving DecidableEq, Repr

/-- Type bundle of the trace-recording engine: `Ok` is the recorded trace,
errors are strings, every builder state is the trace accumulated so far. -/
def TP : SP where
  Ok := List Ev
  Err := String
  Sq := List Ev
  St := List Ev
  Sts := List Ev
  Stv := List Ev
  Sm := List Ev
  Sst := List Ev
  Ssv := List Ev
  Is := Unit
  Im := Unit

/-- Element step of the trace engine's sequence/tuple builders at fuel `n`:
serialize the handed value recursively (against a fresh fuel-`n` engine) and
append its trace behind an `elemEv` marker. -/
def elemStep (e : Serializer DVal TP) (tr : List Ev) (tv : Tagged DVal) :
    Except String (List Ev) :=
  (serTV tv e).map (fun sub => tr ++ Ev.elemEv :: sub)

/-- Key step of the trace engine's map builder. -/
def keyStep (e : Serializer DVal TP) (tr : List Ev) (tv : Tagged DVal) :
    Except String (List Ev) :=
  (serTV tv e).map (fun sub => tr ++ Ev.keyEv :: sub)

/-- Value step of the trace engine's map builder. -/
def valueStep (e : Serializer DVal TP) (tr : List Ev) (tv : Tagged DVal) :
    Except String (List Ev) :=
  (serTV tv e).map (fun sub => tr ++ Ev.valueEv :: sub)

/-- Entry step of the trace engine's map builder: key then value. -/
def entryStep (e : Serializer DVal TP) (tr : List Ev) (k v : Tagged DVal) :
    Except String (List Ev) := do
  let tr ← keyStep e tr k
  valueStep e tr v

/-- Field step of the trace engine's struct builders. -/
def fieldStep (e : Serializer DVal TP) (tr : List Ev) (name : String)
    (tv : Tagged DVal) : Except String (List Ev) :=
  (serTV tv e).map (fun sub => tr ++ Ev.fieldEv name :: sub)

/-- Skip step of the trace engine's struct builders. -/
def skipStep (tr : List Ev) (name : String) : Except String (List Ev) :=
  Except.ok (tr ++ [Ev.skipEv name])

/-- End step shared by all trace-engine builders. -/
def endStep (tr : List Ev) : Except String (List Ev) :=
  Except.ok (tr ++ [Ev.endEv])

/-- The out-of-fuel engine: every operation fails (with the engine's own
error), so that `traceSer` is total. -/
def fuelOut : Serializer DVal TP where
  is_human_readable := false
  serialize_bool := fun _ => .error "fuel"
  serialize_i8 := fun _ => .error "fuel"
  serialize_i16 := fun _ => .error "fuel"
  serialize_i32 := fun _ => .error "fuel"
  serialize_i64 := fun _ => .error "fuel"
  serialize_i128 := fun _ => .error "fuel"
  serialize_u8 := fun _ => .error "fuel"
  serialize_u16 := fun _ => .error "fuel"
  serialize_u32 := fun _ => .error "fuel"
  serialize_u64 := fun _ => .error "fuel"
  serialize_u128 := fun _ => .error "fuel"
  serialize_f32 := fun _ => .error "fuel"
  serialize_f64 := fun _ => .error "fuel"
  serialize_char := fun _ => .error "fuel"
  serialize_str := fun _ => .error "fuel"
  serialize_bytes := fun _ => .error "fuel"
  serialize_unit_struct := fun _ => .error "fuel"
  serialize_unit := .error "fuel"
  serialize_unit_variant := fun _ _ _ => .error "fuel"
  serialize_newtype_struct := fun _ _ => .error "fuel"
  serialize_newtype_variant := fun _ _ _ _ => .error "fuel"
  serialize_none := .error "fuel"
  serialize_some := fun _ => .error "fuel"
  serialize_seq := fun _ => .error "fuel"
  serialize_tuple := fun _ => .error "fuel"
  serialize_tuple_struct := fun _ _ => .error "fuel"
  serialize_tuple_variant := fun _ _ _ _ => .error "fuel"
  serialize_map := fun _ => .error "fuel"
  serialize_struct := fun _ _ => .error "fuel"
  serialize_struct_variant := fun _ _ _ _ => .error "fuel"
  collect_seq := fun _ => .error "fuel"
  collect_map := fun _ => .error "fuel"
  collect_str := fun _ => .error "fuel"

/-- The fuel-indexed trace-recording engine: every operation records itself
(with its arguments); value-consuming operations serialize the handed value
recursively at one fuel less, so the recorded trace is the complete sequence
of operations observed at every nesting depth.  Its own
`is_human_readable` is `false` (an arbitrary fixed native mode). -/
def traceSer : Nat → Serializer DVal TP
  | 0 => fuelOut
  | n + 1 =>
    { is_human_readable := false
      serialize_bool := fun b => .ok [Ev.bool b]
      serialize_i8 := fun v => .ok [Ev.i64 v]
      serialize_i16 := fun v => .ok [Ev.i64 v]
      serialize_i32 := fun v => .ok [Ev.i64 v]
      serialize_i64 := fun v => .ok [Ev.i64 v]
      serialize_i128 := fun v => .ok [Ev.i64 v]
      serialize_u8 := fun v => .ok [Ev.i64 (Int.ofNat v)]
      serialize_u16 := fun v => .ok [Ev.i64 (Int.ofNat v)]
      serialize_u32 := fun v => .ok [Ev.i64 (Int.ofNat v)]
      serialize_u64 := fun v => .ok [Ev.i64 (Int.ofNat v)]
      serialize_u128 := fun v => .ok [Ev.i64 (Int.ofNat v)]
      serialize_f32 := fun v => .ok [Ev.i64 (Int.ofNat v)]
      serialize_f64 := fun v => .ok [Ev.i64 (Int.ofNat v)]
      serialize_char := fun c => .ok [Ev.str (String.mk [c])]
      serialize_str := fun t => .ok [Ev.str t]
      serialize_bytes := fun _ => .ok [Ev.unitEv]
      serialize_unit_struct := fun name => .ok [Ev.newtypeStructEv name]
      serialize_unit := .ok [Ev.unitEv]
      serialize_unit_variant := fun name i var => .ok [Ev.newtypeVariantEv name i var]
      serialize_newtype_struct := fun name tv =>
        (serTV tv (traceSer n)).map (fun sub => Ev.newtypeStructEv name :: sub)
      serialize_newtype_variant := fun name i var tv =>
        (serTV tv (traceSer n)).map (fun sub => Ev.newtypeVariantEv name i var :: sub)
      serialize_none := .ok [Ev.noneEv]
      serialize_some := fun tv =>
        (serTV tv (traceSer n)).map (fun sub => Ev.someEv :: sub)
      serialize_seq := fun len =>
        .ok ⟨[Ev.beginSeq len], elemStep (traceSer n), endStep⟩
      serialize_tuple := fun len =>
        .ok ⟨[Ev.beginTuple len], elemStep (traceSer n), endStep⟩
      serialize_tuple_struct := fun name len =>
        .ok ⟨[Ev.beginTupleStruct name len], elemStep (traceSer n), endStep⟩
      serialize_tuple_variant := fun name i var len =>
        .ok ⟨[Ev.beginTupleVariant name i var len], elemStep (traceSer n), endStep⟩
      serialize_map := fun len =>
        .ok ⟨[Ev.beginMap len], keyStep (traceSer n), valueStep (traceSer n),
          entryStep (traceSer n), endStep⟩
      serialize_struct := fun name len =>
        .ok ⟨[Ev.beginStruct name len], fieldStep (traceSer n), skipStep, endStep⟩
      serialize_struct_variant := fun name i var len =>
        .ok ⟨[Ev.beginStructVariant name i var len], fieldStep (traceSer n), skipStep,
          endStep⟩
      collect_seq := fun _ => .error "collect"
      collect_map := fun _ => .error "collect"
      collect_str := fun t => .ok [Ev.str t] }

/-- A chain of serializer overlay layers, outermost first. -/
def wrapChain {α : Type} {P : SP} (c : List Mode) (s : Serializer α P) :
    Serializer α P :=
  c.foldr wrapSerializer s

/-- The cumulative tagging a chain of layers applies to a handed-over value
(the outermost layer's tag is applied first, innermost last). -/
def wrapVals {α : Type} (c : List Mode) (v : Tagged α) : Tagged α :=
  c.foldl (fun v m => m.wrap v) v

/-- A chain of sequence/tuple-builder overlay layers. -/
def chainSeq {σ α Ok Err : Type} (c : List Mode) (b : SerializeSeq σ α Ok Err) :
    SerializeSeq σ α Ok Err :=
  c.foldr wrapSeq b

/-- A chain of map-builder overlay layers. -/
def chainMap {σ α Ok Err : Type} (c : List Mode) (b : SerializeMap σ α Ok Err) :
    SerializeMap σ α Ok Err :=
  c.foldr wrapMap b

/-- A chain of struct-builder overlay layers. -/
def chainStruct {σ α Ok Err : Type} (c : List Mode) (b : SerializeStruct σ α Ok Err) :
    SerializeStruct σ α Ok Err :=
  c.foldr wrapStruct b

/-!
## Reachable capability objects

For the mode-propagation invariant we collect every kind of capability object
an overlay can produce (write side: the engine and its seven builders; read
side: the engine, the two stateful accessors, the enum accessor and the
variant accessor) and the one-step "produces" relation between them: `o`
produces `o2` when one successful operation on `o` returns, or hands onward,
the object `o2`.
-/

/-- A capability object of either side. -/
inductive SObj (α : Type) (P : SP) (Q : DP) : Type
  | ser : Serializer α P → SObj α P Q
  | seqB : SerializeSeq P.Sq α P.Ok P.Err → SObj α P Q
  | tupB : SerializeSeq P.St α P.Ok P.Err → SObj α P Q
  | tsB : SerializeSeq P.Sts α P.Ok P.Err → SObj α P Q
  | tvB : SerializeSeq P.Stv α P.Ok P.Err → SObj α P Q
  | mapB : SerializeMap P.Sm α P.Ok P.Err → SObj α P Q
  | stB : SerializeStruct P.Sst α P.Ok P.Err → SObj α P Q
  | svB : SerializeStruct P.Ssv α P.Ok P.Err → SObj α P Q
  | deser : Deserializer Q → SObj α P Q
  | seqAcc : SeqAccess Q → SObj α P Q
  | mapAcc : MapAccess Q → SObj α P Q
  | enumAcc : EnumAccess Q → SObj α P Q
  | varAcc : VariantAccess Q → SObj α P Q

/-- `Wrapped m o`: the object is the tag-variant-`m` overlay of some inner
object of the same kind. -/
def Wrapped {α : Type} {P : SP} {Q : DP} (m : Mode) : SObj α P Q → Prop
  | .ser s => ∃ s0, s = wrapSerializer m s0
  | .seqB b => ∃ b0, b = wrapSeq m b0
  | .tupB b => ∃ b0, b = wrapSeq m b0
  | .tsB b => ∃ b0, b = wrapSeq m b0
  | .tvB b => ∃ b0, b = wrapSeq m b0
  | .mapB b => ∃ b0, b = wrapMap m b0
  | .stB b => ∃ b0, b = wrapStruct m b0
  | .svB b => ∃ b0, b = wrapStruct m b0
  | .deser d => ∃ d0, d = wrapDeserializer m d0
  | .seqAcc a => ∃ a0, a = wrapSeqAccess m a0
  | .mapAcc a => ∃ a0, a = wrapMapAccess m a0
  | .enumAcc a => ∃ a0, a = wrapEnumAccess m a0
  | .varAcc a => ∃ a0, a = wrapVariantAccess m a0

/-- One successful operation on the first object returns (or updates to) the
second object. -/
inductive Produces {α : Type} {P : SP} {Q : DP} : SObj α P Q → SObj α P Q → Prop
  | seq_begin {s : Serializer α P} {len b} :
      s.serialize_seq len = .ok b → Produces (.ser s) (.seqB b)
  | tuple_begin {s : Serializer α P} {len b} :
      s.serialize_tuple len = .ok b → Produces (.ser s) (.tupB b)
  | tuple_struct_begin {s : Serializer α P} {name len b} :
      s.serialize_tuple_struct name len = .ok b → Produces (.ser s) (.tsB b)
  | tuple_variant_begin {s : Serializer α P} {name i var len b} :
      s.serialize_tuple_variant name i var len = .ok b → Produces (.ser s) (.tvB b)
  | map_begin {s : Serializer α P} {len b} :
      s.serialize_map len = .ok b → Produces (.ser s) (.mapB b)
  | struct_begin {s : Serializer α P} {name len b} :
      s.serialize_struct name len = .ok b → Produces (.ser s) (.stB b)
  | struct_variant_begin {s : Serializer α P} {name i var len b} :
      s.serialize_struct_variant name i var len = .ok b → Produces (.ser s) (.svB b)
  | seq_push {b v b2} : SerializeSeq.push b v = .ok b2 →
      Produces (.seqB b) (.seqB b2)
  | tuple_push {b v b2} : SerializeSeq.push b v = .ok b2 →
      Produces (.tupB b) (.tupB b2)
  | tuple_struct_push {b v b2} : SerializeSeq.push b v = .ok b2 →
      Produces (.tsB b) (.tsB b2)
  | tuple_variant_push {b v b2} : SerializeSeq.push b v = .ok b2 →
      Produces (.tvB b) (.tvB b2)
  | map_key_push {b v b2} : SerializeMap.pushKey b v = .ok b2 →
      Produces (.mapB b) (.mapB b2)
  | map_value_push {b v b2} : SerializeMap.pushValue b v = .ok b2 →
      Produces (.mapB b) (.mapB b2)
  | map_entry_push {b k v b2} : SerializeMap.pushEntry b k v = .ok b2 →
      Produces (.mapB b) (.mapB b2)
  | struct_field_push {b name v b2} : SerializeStruct.pushField b name v = .ok b2 →
      Produces (.stB b) (.stB b2)
  | struct_skip_push {b name b2} : SerializeStruct.skipField b name = .ok b2 →
      Produces (.stB b) (.stB b2)
  | struct_variant_field_push {b name v b2} :
      SerializeStruct.pushField b name v = .ok b2 → Produces (.svB b) (.svB b2)
  | struct_variant_skip_push {b name b2} :
      SerializeStruct.skipField b name = .ok b2 → Produces (.svB b) (.svB b2)
  | enum_variant {a : EnumAccess Q} {seed w va} :
      a.variant_seed seed = .ok (w, va) → Produces (.enumAcc a) (.varAcc va)
  | seqacc_next {a : SeqAccess Q} {seed r a2} :
      a.nextElement seed = .ok (r, a2) → Produces (.seqAcc a) (.seqAcc a2)
  | mapacc_key {a : MapAccess Q} {seed r a2} :
      a.nextKey seed = .ok (r, a2) → Produces (.mapAcc a) (.mapAcc a2)
  | mapacc_value {a : MapAccess Q} {seed r a2} :
      a.nextValue seed = .ok (r, a2) → Produces (.mapAcc a) (.mapAcc a2)
  | mapacc_entry {a : MapAccess Q} {kseed vseed r a2} :
      a.nextEntry kseed vseed = .ok (r, a2) → Produces (.mapAcc a) (.mapAcc a2)

/-- Type bundle of a trivial write-side engine used as a concrete instance. -/
@[reducible] def PU : SP where
  Ok := Unit
  Err := String
  Sq := Unit
  St := Unit
  Sts := Unit
  Stv := Unit
  Sm := Unit
  Sst := Unit
  Ssv := Unit
  Is := Unit
  Im := Unit

/-- Trivial sequence builder: accepts everything. -/
def trivSeqB : SerializeSeq Unit Unit Unit String :=
  ⟨(), fun st _ => .ok st, fun _ => .ok ()⟩

/-- Trivial map builder. -/
def trivMapB : SerializeMap Unit Unit Unit String :=
  ⟨(), fun st _ => .ok st, fun st _ => .ok st, fun st _ _ => .ok st, fun _ => .ok ()⟩

/-- Trivial struct builder. -/
def trivStructB : SerializeStruct Unit Unit Unit String :=
  ⟨(), fun st _ _ => .ok st, fun st _ => .ok st, fun _ => .ok ()⟩

/-- A trivial concrete engine: every operation succeeds. -/
def trivSer : Serializer Unit PU where
  is_human_readable := false
  serialize_bool := fun _ => .ok ()
  serialize_i8 := fun _ => .ok ()
  serialize_i16 := fun _ => .ok ()
  serialize_i32 := fun _ => .ok ()
  serialize_i64 := fun _ => .ok ()
  serialize_i128 := fun _ => .ok ()
  serialize_u8 := fun _ => .ok ()
  serialize_u16 := fun _ => .ok ()
  serialize_u32 := fun _ => .ok ()
  serialize_u64 := fun _ => .ok ()
  serialize_u128 := fun _ => .ok ()
  serialize_f32 := fun _ => .ok ()
  serialize_f64 := fun _ => .ok ()
  serialize_char := fun _ => .ok ()
  serialize_str := fun _ => .ok ()
  serialize_bytes := fun _ => .ok ()
  serialize_unit_struct := fun _ => .ok ()
  serialize_unit := .ok ()
  serialize_unit_variant := fun _ _ _ => .ok ()
  serialize_newtype_struct := fun _ _ => .ok ()
  serialize_newtype_variant := fun _ _ _ _ => .ok ()
  serialize_none := .ok ()
  serialize_some := fun _ => .ok ()
  serialize_seq := fun _ => .ok trivSeqB
  serialize_tuple := fun _ => .ok trivSeqB
  serialize_tuple_struct := fun _ _ => .ok trivSeqB
  serialize_tuple_variant := fun _ _ _ _ => .ok trivSeqB
  serialize_map := fun _ => .ok trivMapB
  serialize_struct := fun _ _ => .ok trivStructB
  serialize_struct_variant := fun _ _ _ _ => .ok trivStructB
  collect_seq := fun _ => .ok ()
  collect_map := fun _ => .ok ()
  collect_str := fun _ => .ok ()

/-- A concrete engine whose sequence-begin fails with a fixed message. -/
def errSer : Serializer Unit PU :=
  { trivSer with serialize_seq := fun _ => .error "boom" }

/-- Type bundle of a trivial read-side engine. -/
@[reducible] def QU : DP where
  W := Nat
  Err := String
  Dh := Unit
  Rh := Unit
  Kh := Unit
  Eh := Unit
  Sd := Unit
  Sa := Unit
  Ma := Unit

/-- A trivial concrete visitor: every acceptance succeeds with `0`. -/
def trivVisitor : Visitor QU where
  expecting := "anything"
  visit_bool := fun _ => .ok 0
  visit_i8 := fun _ => .ok 0
  visit_i16 := fun _ => .ok 0
  visit_i32 := fun _ => .ok 0
  visit_i64 := fun _ => .ok 0
  visit_i128 := fun _ => .ok 0
  visit_u8 := fun _ => .ok 0
  visit_u16 := fun _ => .ok 0
  visit_u32 := fun _ => .ok 0
  visit_u64 := fun _ => .ok 0
  visit_u128 := fun _ => .ok 0
  visit_f32 := fun _ => .ok 0
  visit_f64 := fun _ => .ok 0
  visit_char := fun _ => .ok 0
  visit_str := fun _ => .ok 0
  visit_borrowed_str := fun _ => .ok 0
  visit_string := fun _ => .ok 0
  visit_bytes := fun _ => .ok 0
  visit_borrowed_bytes := fun _ => .ok 0
  visit_byte_buf := fun _ => .ok 0
  visit_none := .ok 0
  visit_some := fun _ => .ok 0
  visit_unit := .ok 0
  visit_newtype_struct := fun _ => .ok 0
  visit_seq := fun _ => .ok 0
  visit_map := fun _ => .ok 0
  visit_enum := fun _ => .ok 0

/-- A trivial concrete read-side engine: every dispatch succeeds with `0`,
ignoring the visitor. -/
def trivDeser : Deserializer QU where
  is_human_readable := true
  deserialize_any := fun _ => .ok 0
  deserialize_bool := fun _ => .ok 0
  deserialize_u8 := fun _ => .ok 0
  deserialize_u16 := fun _ => .ok 0
  deserialize_u32 := fun _ => .ok 0
  deserialize_u64 := fun _ => .ok 0
  deserialize_u128 := fun _ => .ok 0
  deserialize_i8 := fun _ => .ok 0
  deserialize_i16 := fun _ => .ok 0
  deserialize_i32 := fun _ => .ok 0
  deserialize_i64 := fun _ => .ok 0
  deserialize_i128 := fun _ => .ok 0
  deserialize_f32 := fun _ => .ok 0
  deserialize_f64 := fun _ => .ok 0
  deserialize_char := fun _ => .ok 0
  deserialize_str := fun _ => .ok 0
  deserialize_string := fun _ => .ok 0
  deserialize_bytes := fun _ => .ok 0
  deserialize_byte_buf := fun _ => .ok 0
  deserialize_option := fun _ => .ok 0
  deserialize_unit := fun _ => .ok 0
  deserialize_seq := fun _ => .ok 0
  deserialize_map := fun _ => .ok 0
  deserialize_identifier := fun _ => .ok 0
  deserialize_ignored_any := fun _ => .ok 0
  deserialize_unit_struct := fun _ _ => .ok 0
  deserialize_newtype_struct := fun _ _ => .ok 0
  deserialize_tuple := fun _ _ => .ok 0
  deserialize_tuple_struct := fun _ _ _ => .ok 0
  deserialize_struct := fun _ _ _ => .ok 0
  deserialize_enum := fun _ _ _ => .ok 0

/-- A trivial concrete variant accessor. -/
def trivVarAcc : VariantAccess QU :=
  ⟨.ok (), fun _ => .ok 0, fun _ _ => .ok 0, fun _ _ => .ok 0⟩

/-- A trivial concrete enum accessor: resolves variant value `7`. -/
def trivEnumAcc : EnumAccess QU :=
  ⟨fun _ => .ok (7, trivVarAcc)⟩

/-!
## Read-side trace recording

For the read-side half of pass-through purity we instantiate the interface
with a recording read-side engine: every dispatch method records the
operation invoked on it (with its name/arity/field-list arguments) and then
drives the supplied visitor according to a scripted input token, and a
recording visitor records every acceptance call it receives with its scalar
arguments.  The recorded trace is thus the complete sequence of operations
the inner engine observes together with the acceptance calls it makes, in
order.  Nested accessor objects are recorded only as calls (their handle
arguments are the overlay's wrapper objects, which the purity property
explicitly excludes from comparison).
-/

/-- Read-side trace events: one per dispatch operation the inner engine
observes (with its arguments), one per visitor acceptance call it makes
(with its scalar payload), and one per accessor operation. -/
inductive REv : Type
  | dAny | dBool | dU8 | dU16 | dU32 | dU64 | dU128
  | dI8 | dI16 | dI32 | dI64 | dI128 | dF32 | dF64
  | dChar | dStr | dString | dBytes | dByteBuf
  | dOption | dUnit | dSeq | dMap | dIdent | dIgnored
  | dUnitStruct (name : String)
  | dNewtypeStruct (name : String)
  | dTuple (len : Nat)
  | dTupleStruct (name : String) (len : Nat)
  | dStruct (name : String) (fields : List String)
  | dEnum (name : String) (variants : List String)
  | vBool (b : Bool) | vI64 (n : Int) | vStr (s : String) | vBytes (bs : List Nat)
  | vNone | vSome | vUnit | vNewtype | vSeq | vMap | vEnum
  | aNextElem | aNextKey | aNextValue | aNextEntry
deriving DecidableEq, Repr

/-- Type bundle of the read-side recording engine: visitor results are
traces, accessor states are the trace accumulated so far. -/
@[reducible] def QT : DP where
  W := List REv
  Err := String
  Dh := Unit
  Rh := Unit
  Kh := Unit
  Eh := Unit
  Sd := Unit
  Sa := List REv
  Ma := List REv

/-- The recording visitor: every acceptance call records itself with its
scalar payload; nested-acceptance calls record the call (the handle is an
overlay wrapper object and is not part of the compared trace). -/
def recVisitor : Visitor QT where
  expecting := "recorded"
  visit_bool := fun b => .ok [REv.vBool b]
  visit_i8 := fun n => .ok [REv.vI64 n]
  visit_i16 := fun n => .ok [REv.vI64 n]
  visit_i32 := fun n => .ok [REv.vI64 n]
  visit_i64 := fun n => .ok [REv.vI64 n]
  visit_i128 := fun n => .ok [REv.vI64 n]
  visit_u8 := fun n => .ok [REv.vI64 (Int.ofNat n)]
  visit_u16 := fun n => .ok [REv.vI64 (Int.ofNat n)]
  visit_u32 := fun n => .ok [REv.vI64 (Int.ofNat n)]
  visit_u64 := fun n => .ok [REv.vI64 (Int.ofNat n)]
  visit_u128 := fun n => .ok [REv.vI64 (Int.ofNat n)]
  visit_f32 := fun n => .ok [REv.vI64 (Int.ofNat n)]
  visit_f64 := fun n => .ok [REv.vI64 (Int.ofNat n)]
  visit_char := fun c => .ok [REv.vStr (String.mk [c])]
  visit_str := fun s => .ok [REv.vStr s]
  visit_borrowed_str := fun s => .ok [REv.vStr s]
  visit_string := fun s => .ok [REv.vStr s]
  visit_bytes := fun bs => .ok [REv.vBytes bs]
  visit_borrowed_bytes := fun bs => .ok [REv.vBytes bs]
  visit_byte_buf := fun bs => .ok [REv.vBytes bs]
  visit_none := .ok [REv.vNone]
  visit_some := fun _ => .ok [REv.vSome]
  visit_unit := .ok [REv.vUnit]
  visit_newtype_struct := fun _ => .ok [REv.vNewtype]
  visit_seq := fun _ => .ok [REv.vSeq]
  visit_map := fun _ => .ok [REv.vMap]
  visit_enum := fun _ => .ok [REv.vEnum]

/-- A scripted input token: what the recording engine's parsed input holds,
deciding which acceptance call the engine makes on the visitor — or a
failure of the engine itself. -/
inductive RIn : Type
  | inBool (b : Bool)
  | inI64 (n : Int)
  | inStr (s : String)
  | inNone
  | inSome
  | inUnit
  | inSeq
  | inMap
  | inEnum
  | inFail (msg : String)
deriving DecidableEq, Repr

/-- Drive a visitor with one scripted input token, as a concrete engine
would after decoding that token. -/
def driveVisitor (inp : RIn) (v : Visitor QT) : Except String (List REv) :=
  match inp with
  | .inBool b => v.visit_bool b
  | .inI64 n => v.visit_i64 n
  | .inStr s => v.visit_str s
  | .inNone => v.visit_none
  | .inSome => v.visit_some (.plain ())
  | .inUnit => v.visit_unit
  | .inSeq => v.visit_seq (.plain ())
  | .inMap => v.visit_map (.plain ())
  | .inEnum => v.visit_enum (.plain ())
  | .inFail msg => .error msg

/-- The recording read-side engine: every dispatch method records the
operation invoked on it with its arguments, then drives the supplied visitor
on the scripted input token. -/
def recDeser (inp : RIn) : Deserializer QT where
  is_human_readable := false
  deserialize_any := fun v => (driveVisitor inp v).map (REv.dAny :: ·)
  deserialize_bool := fun v => (driveVisitor inp v).map (REv.dBool :: ·)
  deserialize_u8 := fun v => (driveVisitor inp v).map (REv.dU8 :: ·)
  deserialize_u16 := fun v => (driveVisitor inp v).map (REv.dU16 :: ·)
  deserialize_u32 := fun v => (driveVisitor inp v).map (REv.dU32 :: ·)
  deserialize_u64 := fun v => (driveVisitor inp v).map (REv.dU64 :: ·)
  deserialize_u128 := fun v => (driveVisitor inp v).map (REv.dU128 :: ·)
  deserialize_i8 := fun v => (driveVisitor inp v).map (REv.dI8 :: ·)
  deserialize_i16 := fun v => (driveVisitor inp v).map (REv.dI16 :: ·)
  deserialize_i32 := fun v => (driveVisitor inp v).map (REv.dI32 :: ·)
  deserialize_i64 := fun v => (driveVisitor inp v).map (REv.dI64 :: ·)
  deserialize_i128 := fun v => (driveVisitor inp v).map (REv.dI128 :: ·)
  deserialize_f32 := fun v => (driveVisitor inp v).map (REv.dF32 :: ·)
  deserialize_f64 := fun v => (driveVisitor inp v).map (REv.dF64 :: ·)
  deserialize_char := fun v => (driveVisitor inp v).map (REv.dChar :: ·)
  deserialize_str := fun v => (driveVisitor inp v).map (REv.dStr :: ·)
  deserialize_string := fun v => (driveVisitor inp v).map (REv.dString :: ·)
  deserialize_bytes := fun v => (driveVisitor inp v).map (REv.dBytes :: ·)
  deserialize_byte_buf := fun v => (driveVisitor inp v).map (REv.dByteBuf :: ·)
  deserialize_option := fun v => (driveVisitor inp v).map (REv.dOption :: ·)
  deserialize_unit := fun v => (driveVisitor inp v).map (REv.dUnit :: ·)
  deserialize_seq := fun v => (driveVisitor inp v).map (REv.dSeq :: ·)
  deserialize_map := fun v => (driveVisitor inp v).map (REv.dMap :: ·)
  deserialize_identifier := fun v => (driveVisitor inp v).map (REv.dIdent :: ·)
  deserialize_ignored_any := fun v => (driveVisitor inp v).map (REv.dIgnored :: ·)
  deserialize_unit_struct := fun name v =>
    (driveVisitor inp v).map (REv.dUnitStruct name :: ·)
  deserialize_newtype_struct := fun name v =>
    (driveVisitor inp v).map (REv.dNewtypeStruct name :: ·)
  deserialize_tuple := fun len v => (driveVisitor inp v).map (REv.dTuple len :: ·)
  deserialize_tuple_struct := fun name len v =>
    (driveVisitor inp v).map (REv.dTupleStruct name len :: ·)
  deserialize_struct := fun name fields v =>
    (driveVisitor inp v).map (REv.dStruct name fields :: ·)
  deserialize_enum := fun name variants v =>
    (driveVisitor inp v).map (REv.dEnum name variants :: ·)

/-- A dispatch request: which of the 31 dispatch operations a value's
mode-oblivious deserialization logic invokes, with its metadata arguments.
(A logic that branches on the mode flag is the read-side analogue of
`DVal.probe` and is outside pass-through purity's scope by the spec's own
carve-out, so no such request is included.) -/
inductive RReq : Type
  | rAny | rBool | rU8 | rU16 | rU32 | rU64 | rU128
  | rI8 | rI16 | rI32 | rI64 | rI128 | rF32 | rF64
  | rChar | rStr | rString | rBytes | rByteBuf
  | rOption | rUnit | rSeq | rMap | rIdent | rIgnored
  | rUnitStruct (name : String)
  | rNewtypeStruct (name : String)
  | rTuple (len : Nat)
  | rTupleStruct (name : String) (len : Nat)
  | rStruct (name : String) (fields : List String)
  | rEnum (name : String) (variants : List String)
deriving DecidableEq, Repr

/-- Run one dispatch request against an engine, supplying the recording
visitor — the canonical shape of a `Deserialize` impl that makes one
dispatch call. -/
def runReq : RReq → Deserializer QT → Except String (List REv)
  | .rAny, d => d.deserialize_any recVisitor
  | .rBool, d => d.deserialize_bool recVisitor
  | .rU8, d => d.deserialize_u8 recVisitor
  | .rU16, d => d.deserialize_u16 recVisitor
  | .rU32, d => d.deserialize_u32 recVisitor
  | .rU64, d => d.deserialize_u64 recVisitor
  | .rU128, d => d.deserialize_u128 recVisitor
  | .rI8, d => d.deserialize_i8 recVisitor
  | .rI16, d => d.deserialize_i16 recVisitor
  | .rI32, d => d.deserialize_i32 recVisitor
  | .rI64, d => d.deserialize_i64 recVisitor
  | .rI128, d => d.deserialize_i128 recVisitor
  | .rF32, d => d.deserialize_f32 recVisitor
  | .rF64, d => d.deserialize_f64 recVisitor
  | .rChar, d => d.deserialize_char recVisitor
  | .rStr, d => d.deserialize_str recVisitor
  | .rString, d => d.deserialize_string recVisitor
  | .rBytes, d => d.deserialize_bytes recVisitor
  | .rByteBuf, d => d.deserialize_byte_buf recVisitor
  | .rOption, d => d.deserialize_option recVisitor
  | .rUnit, d => d.deserialize_unit recVisitor
  | .rSeq, d => d.deserialize_seq recVisitor
  | .rMap, d => d.deserialize_map recVisitor
  | .rIdent, d => d.deserialize_identifier recVisitor
  | .rIgnored, d => d.deserialize_ignored_any recVisitor
  | .rUnitStruct name, d => d.deserialize_unit_struct name recVisitor
  | .rNewtypeStruct name, d => d.deserialize_newtype_struct name recVisitor
  | .rTuple len, d => d.deserialize_tuple len recVisitor
  | .rTupleStruct name len, d => d.deserialize_tuple_struct name len recVisitor
  | .rStruct name fields, d => d.deserialize_struct name fields recVisitor
  | .rEnum name variants, d => d.deserialize_enum name variants recVisitor

/-- A recording sequence accessor: its state is the trace of operations
invoked on it. -/
def recSeqAcc (tr : List REv) : SeqAccess QT where
  state := tr
  next_element_seed := fun st _ => .ok (none, st ++ [REv.aNextElem])
  size_hint := fun st => some st.length

/-- A recording map accessor: its state is the trace of operations invoked
on it. -/
def recMapAcc (tr : List REv) : MapAccess QT where
  state := tr
  next_key_seed := fun st _ => .ok (none, st ++ [REv.aNextKey])
  next_value_seed := fun st _ => .ok ([], st ++ [REv.aNextValue])
  next_entry_seed := fun st _ _ => .ok (none, st ++ [REv.aNextEntry])
  size_hint := fun st => some st.length

/-!
## Chains of overlay layers

Double wrapping (`Readable<Compact<S>>` etc.) and recursion through tagged
values produce finitely many overlay layers around an engine.  A chain
`[m1, m2, ...]` denotes `wrap m1 (wrap m2 (... s))`, i.e. `m1` is the
outermost layer.
-/

/-- Composing map functions on `Except`. -/
theorem exceptMapComp {ε α β γ : Type} (f : α → β) (g : β → γ) (x : Except ε α) :
    (x.map f).map g = x.map (fun a => g (f a)) := by
  cases x <;> rfl

/-- Inverting `Except.map` on a success. -/
theorem exceptMap_eq_ok {ε α β : Type} {f : α → β} {x : Except ε α} {b : β}
    (h : x.map f = .ok b) : ∃ a, x = .ok a ∧ b = f a := by
  cases x with
  | ok a => exact ⟨a, rfl, by simpa [Except.map] using h.symm⟩
  | error e => simp [Except.map] at h

/-- `Except.map` preserves and reflects errors. -/
theorem exceptMap_eq_error {ε α β : Type} {f : α → β} {x : Except ε α} {e : ε} :
    x.map f = .error e ↔ x = .error e := by
  cases x <;> simp [Except.map]

/-- Mapping a pointwise-identity function over `Except` is the identity. -/
theorem exceptMap_id {ε β : Type} {f : β → β} (hf : ∀ b, f b = b) (x : Except ε β) :
    x.map f = x := by
  cases x <;> simp [Except.map, hf]

theorem wrapChain_nil {α : Type} {P : SP} (s : Serializer α P) :
    wrapChain [] s = s := rfl

theorem wrapChain_cons {α : Type} {P : SP} (m : Mode) (c : List Mode)
    (s : Serializer α P) : wrapChain (m :: c) s = wrapSerializer m (wrapChain c s) :=
  rfl

theorem wrapVals_cons {α : Type} (m : Mode) (c : List Mode) (v : Tagged α) :
    wrapVals (m :: c) v = wrapVals c (m.wrap v) := rfl

/-- A chained sequence/tuple builder in closed form: same state and `end`,
elements tagged by the whole chain. -/
theorem chainSeq_eq {σ α Ok Err : Type} (c : List Mode)
    (b : SerializeSeq σ α Ok Err) :
    chainSeq c b = ⟨b.state, fun st v => b.element st (wrapVals c v), b.fin⟩ := by
  induction c with
  | nil => rfl
  | cons m c ih =>
    show wrapSeq m (chainSeq c b) = _
    rw [ih]
    rfl

/-- A chained map builder in closed form. -/
theorem chainMap_eq {σ α Ok Err : Type} (c : List Mode)
    (b : SerializeMap σ α Ok Err) :
    chainMap c b = ⟨b.state, fun st v => b.key st (wrapVals c v),
      fun st v => b.value st (wrapVals c v),
      fun st k v => b.entry st (wrapVals c k) (wrapVals c v), b.fin⟩ := by
  induction c with
  | nil => rfl
  | cons m c ih =>
    show wrapMap m (chainMap c b) = _
    rw [ih]
    rfl

/-- A chained struct builder in closed form. -/
theorem chainStruct_eq {σ α Ok Err : Type} (c : List Mode)
    (b : SerializeStruct σ α Ok Err) :
    chainStruct c b = ⟨b.state, fun st name v => b.field st name (wrapVals c v),
      b.skip, b.fin⟩ := by
  induction c with
  | nil => rfl
  | cons m c ih =>
    show wrapStruct m (chainStruct c b) = _
    rw [ih]
    rfl

theorem wrapChain_serialize_bool {α : Type} {P : SP} (c : List Mode)
    (s : Serializer α P) : (wrapChain c s).serialize_bool = s.serialize_bool := by
  induction c with
  | nil => rfl
  | cons m c ih => exact ih

theorem wrapChain_serialize_i64 {α : Type} {P : SP} (c : List Mode)
    (s : Serializer α P) : (wrapChain c s).serialize_i64 = s.serialize_i64 := by
  induction c with
  | nil => rfl
  | cons m c ih => exact ih

theorem wrapChain_serialize_str {α : Type} {P : SP} (c : List Mode)
    (s : Serializer α P) : (wrapChain c s).serialize_str = s.serialize_str := by
  induction c with
  | nil => rfl
  | cons m c ih => exact ih

theorem wrapChain_serialize_unit {α : Type} {P : SP} (c : List Mode)
    (s : Serializer α P) : (wrapChain c s).serialize_unit = s.serialize_unit := by
  induction c with
  | nil => rfl
  | cons m c ih => exact ih

theorem wrapChain_serialize_none {α : Type} {P : SP} (c : List Mode)
    (s : Serializer α P) : (wrapChain c s).serialize_none = s.serialize_none := by
  induction c with
  | nil => rfl
  | cons m c ih => exact ih

theorem wrapChain_serialize_some {α : Type} {P : SP} (c : List Mode)
    (s : Serializer α P) (v : Tagged α) :
    (wrapChain c s).serialize_some v = s.serialize_some (wrapVals c v) := by
  induction c generalizing v with
  | nil => rfl
  | cons m c ih => exact ih (m.wrap v)

theorem wrapChain_serialize_newtype_struct {α : Type} {P : SP} (c : List Mode)
    (s : Serializer α P) (name : String) (v : Tagged α) :
    (wrapChain c s).serialize_newtype_struct name v =
      s.serialize_newtype_struct name (wrapVals c v) := by
  induction c generalizing v with
  | nil => rfl
  | cons m c ih => exact ih (m.wrap v)

theorem wrapChain_serialize_newtype_variant {α : Type} {P : SP} (c : List Mode)
    (s : Serializer α P) (name : String) (i : Nat) (var : String) (v : Tagged α) :
    (wrapChain c s).serialize_newtype_variant name i var v =
      s.serialize_newtype_variant name i var (wrapVals c v) := by
  induction c generalizing v with
  | nil => rfl
  | cons m c ih => exact ih (m.wrap v)

theorem wrapChain_serialize_seq {α : Type} {P : SP} (c : List Mode)
    (s : Serializer α P) (len : Option Nat) :
    (wrapChain c s).serialize_seq len = (s.serialize_seq len).map (chainSeq c) := by
  induction c with
  | nil => exact (exceptMap_id (fun b => rfl) _).symm
  | cons m c ih =>
    show ((wrapChain c s).serialize_seq len).map (wrapSeq m) = _
    rw [ih, exceptMapComp]
    rfl

theorem wrapChain_serialize_tuple {α : Type} {P : SP} (c : List Mode)
    (s : Serializer α P) (len : Nat) :
    (wrapChain c s).serialize_tuple len = (s.serialize_tuple len).map (chainSeq c) := by
  induction c with
  | nil => exact (exceptMap_id (fun b => rfl) _).symm
  | cons m c ih =>
    show ((wrapChain c s).serialize_tuple len).map (wrapSeq m) = _
    rw [ih, exceptMapComp]
    rfl

theorem wrapChain_serialize_tuple_struct {α : Type} {P : SP} (c : List Mode)
    (s : Serializer α P) (name : String) (len : Nat) :
    (wrapChain c s).serialize_tuple_struct name len =
      (s.serialize_tuple_struct name len).map (chainSeq c) := by
  induction c with
  | nil => exact (exceptMap_id (fun b => rfl) _).symm
  | cons m c ih =>
    show ((wrapChain c s).serialize_tuple_struct name len).map (wrapSeq m) = _
    rw [ih, exceptMapComp]
    rfl

theorem wrapChain_serialize_tuple_variant {α : Type} {P : SP} (c : List Mode)
    (s : Serializer α P) (name : String) (i : Nat) (var : String) (len : Nat) :
    (wrapChain c s).serialize_tuple_variant name i var len =
      (s.serialize_tuple_variant name i var len).map (chainSeq c) := by
  induction c with
  | nil => exact (exceptMap_id (fun b => rfl) _).symm
  | cons m c ih =>
    show ((wrapChain c s).serialize_tuple_variant name i var len).map (wrapSeq m) = _
    rw [ih, exceptMapComp]
    rfl

theorem wrapChain_serialize_map {α : Type} {P : SP} (c : List Mode)
    (s : Serializer α P) (len : Option Nat) :
    (wrapChain c s).serialize_map len = (s.serialize_map len).map (chainMap c) := by
  induction c with
  | nil => exact (exceptMap_id (fun b => rfl) _).symm
  | cons m c ih =>
    show ((wrapChain c s).serialize_map len).map (wrapMap m) = _
    rw [ih, exceptMapComp]
    rfl

theorem wrapChain_serialize_struct {α : Type} {P : SP} (c : List Mode)
    (s : Serializer α P) (name : String) (len : Nat) :
    (wrapChain c s).serialize_struct name len =
      (s.serialize_struct name len).map (chainStruct c) := by
  induction c with
  | nil => exact (exceptMap_id (fun b => rfl) _).symm
  | cons m c ih =>
    show ((wrapChain c s).serialize_struct name len).map (wrapStruct m) = _
    rw [ih, exceptMapComp]
    rfl

theorem wrapChain_serialize_struct_variant {α : Type} {P : SP} (c : List Mode)
    (s : Serializer α P) (name : String) (i : Nat) (var : String) (len : Nat) :
    (wrapChain c s).serialize_struct_variant name i var len =
      (s.serialize_struct_variant name i var len).map (chainStruct c) := by
  induction c with
  | nil => exact (exceptMap_id (fun b => rfl) _).symm
  | cons m c ih =>
    show ((wrapChain c s).serialize_struct_variant name i var len).map (wrapStruct m) = _
    rw [ih, exceptMapComp]
    rfl

/-- Serializing a chain-tagged value equals serializing the value against the
chain-wrapped engine. -/
theorem serTV_wrapVals {P : SP} (c : List Mode) (v : Tagged DVal)
    (s : Serializer DVal P) : serTV (wrapVals c v) s = serTV v (wrapChain c s) := by
  induction c generalizing v with
  | nil => rfl
  | cons m c ih =>
    rw [wrapVals_cons, ih (m.wrap v)]
    cases m <;> rfl

/-- `(x.map f).bind g = x.bind (g after f)`. -/
theorem exceptMapBind {ε α β γ : Type} (f : α → β) (g : β → Except ε γ)
    (x : Except ε α) : (x.map f).bind g = x.bind (fun a => g (f a)) := by
  cases x <;> rfl

/-- Pushing an element into a chained sequence/tuple builder pushes the
chain-tagged element into the underlying builder and re-chains the result. -/
theorem chainSeq_push {σ α Ok Err : Type} (c : List Mode)
    (b : SerializeSeq σ α Ok Err) (v : Tagged α) :
    (chainSeq c b).push v = (b.push (wrapVals c v)).map (chainSeq c) := by
  rw [chainSeq_eq]
  show (b.element b.state (wrapVals c v)).map _ = _
  rw [SerializeSeq.push, exceptMapComp]
  cases b.element b.state (wrapVals c v) with
  | error e => rfl
  | ok st => simp [chainSeq_eq]

theorem chainSeq_stop {σ α Ok Err : Type} (c : List Mode)
    (b : SerializeSeq σ α Ok Err) : (chainSeq c b).stop = b.stop := by
  rw [chainSeq_eq]; rfl

theorem chainMap_pushKey {σ α Ok Err : Type} (c : List Mode)
    (b : SerializeMap σ α Ok Err) (v : Tagged α) :
    (chainMap c b).pushKey v = (b.pushKey (wrapVals c v)).map (chainMap c) := by
  rw [chainMap_eq]
  show (b.key b.state (wrapVals c v)).map _ = _
  rw [SerializeMap.pushKey, exceptMapComp]
  cases b.key b.state (wrapVals c v) with
  | error e => rfl
  | ok st => simp [chainMap_eq]

theorem chainMap_pushValue {σ α Ok Err : Type} (c : List Mode)
    (b : SerializeMap σ α Ok Err) (v : Tagged α) :
    (chainMap c b).pushValue v = (b.pushValue (wrapVals c v)).map (chainMap c) := by
  rw [chainMap_eq]
  show (b.value b.state (wrapVals c v)).map _ = _
  rw [SerializeMap.pushValue, exceptMapComp]
  cases b.value b.state (wrapVals c v) with
  | error e => rfl
  | ok st => simp [chainMap_eq]

theorem chainMap_pushEntry {σ α Ok Err : Type} (c : List Mode)
    (b : SerializeMap σ α Ok Err) (k v : Tagged α) :
    (chainMap c b).pushEntry k v =
      (b.pushEntry (wrapVals c k) (wrapVals c v)).map (chainMap c) := by
  rw [chainMap_eq]
  show (b.entry b.state (wrapVals c k) (wrapVals c v)).map _ = _
  rw [SerializeMap.pushEntry, exceptMapComp]
  cases b.entry b.state (wrapVals c k) (wrapVals c v) with
  | error e => rfl
  | ok st => simp [chainMap_eq]

theorem chainMap_stop {σ α Ok Err : Type} (c : List Mode)
    (b : SerializeMap σ α Ok Err) : (chainMap c b).stop = b.stop := by
  rw [chainMap_eq]; rfl

theorem chainStruct_pushField {σ α Ok Err : Type} (c : List Mode)
    (b : SerializeStruct σ α Ok Err) (name : String) (v : Tagged α) :
    (chainStruct c b).pushField name v =
      (b.pushField name (wrapVals c v)).map (chainStruct c) := by
  rw [chainStruct_eq]
  show (b.field b.state name (wrapVals c v)).map _ = _
  rw [SerializeStruct.pushField, exceptMapComp]
  cases b.field b.state name (wrapVals c v) with
  | error e => rfl
  | ok st => simp [chainStruct_eq]

theorem chainStruct_skipField {σ α Ok Err : Type} (c : List Mode)
    (b : SerializeStruct σ α Ok Err) (name : String) :
    (chainStruct c b).skipField name = (b.skipField name).map (chainStruct c) := by
  rw [chainStruct_eq]
  show (b.skip b.state name).map _ = _
  rw [SerializeStruct.skipField, exceptMapComp]
  cases b.skip b.state name with
  | error e => rfl
  | ok st => simp [chainStruct_eq]

theorem chainStruct_stop {σ α Ok Err : Type} (c : List Mode)
    (b : SerializeStruct σ α Ok Err) : (chainStruct c b).stop = b.stop := by
  rw [chainStruct_eq]; rfl

/-- With the fuel-exhausted engine every canonical serialization fails with
the engine's own error, however many overlay layers are stacked on it. -/
theorem serValue_fuelOut (d : DVal) (c : List Mode) :
    serValue d (wrapChain c fuelOut) = .error "fuel" := by
  cases d with
  | probe =>
    show (wrapChain c fuelOut).serialize_bool _ = _
    rw [wrapChain_serialize_bool]
    rfl
  | boolV b =>
    show (wrapChain c fuelOut).serialize_bool _ = _
    rw [wrapChain_serialize_bool]
    rfl
  | intV n =>
    show (wrapChain c fuelOut).serialize_i64 _ = _
    rw [wrapChain_serialize_i64]
    rfl
  | strV t =>
    show (wrapChain c fuelOut).serialize_str _ = _
    rw [wrapChain_serialize_str]
    rfl
  | unitV =>
    show (wrapChain c fuelOut).serialize_unit = _
    rw [wrapChain_serialize_unit]
    rfl
  | noneV =>
    show (wrapChain c fuelOut).serialize_none = _
    rw [wrapChain_serialize_none]
    rfl
  | someV v =>
    show (wrapChain c fuelOut).serialize_some _ = _
    rw [wrapChain_serialize_some]
    rfl
  | newtypeStructV name v =>
    show (wrapChain c fuelOut).serialize_newtype_struct _ _ = _
    rw [wrapChain_serialize_newtype_struct]
    rfl
  | newtypeVariantV name i var v =>
    show (wrapChain c fuelOut).serialize_newtype_variant _ _ _ _ = _
    rw [wrapChain_serialize_newtype_variant]
    rfl
  | seqV vs =>
    show runSeqShape ((wrapChain c fuelOut).serialize_seq _) _ = _
    rw [wrapChain_serialize_seq]
    rfl
  | tupleV vs =>
    show runSeqShape ((wrapChain c fuelOut).serialize_tuple _) _ = _
    rw [wrapChain_serialize_tuple]
    rfl
  | tupleStructV name vs =>
    show runSeqShape ((wrapChain c fuelOut).serialize_tuple_struct _ _) _ = _
    rw [wrapChain_serialize_tuple_struct]
    rfl
  | tupleVariantV name i var vs =>
    show runSeqShape ((wrapChain c fuelOut).serialize_tuple_variant _ _ _ _) _ = _
    rw [wrapChain_serialize_tuple_variant]
    rfl
  | mapV kvs =>
    show runMapShape ((wrapChain c fuelOut).serialize_map _) _ = _
    rw [wrapChain_serialize_map]
    rfl
  | structV name fs =>
    show runStructShape ((wrapChain c fuelOut).serialize_struct _ _) _ = _
    rw [wrapChain_serialize_struct]
    rfl
  | structVariantV name i var fs =>
    show runStructShape ((wrapChain c fuelOut).serialize_struct_variant _ _ _ _) _ = _
    rw [wrapChain_serialize_struct_variant]
    rfl

/-- Folding element pushes over a chained sequence/tuple builder equals
folding chain-tagged pushes over the underlying builder, re-chained. -/
theorem foldPush_chain {σ Ok Err : Type} (c : List Mode) (vs : List DVal) :
    ∀ b : SerializeSeq σ DVal Ok Err,
      vs.foldlM (fun b v => SerializeSeq.push b (Tagged.plain v)) (chainSeq c b)
        = (vs.foldlM (fun b v => SerializeSeq.push b (wrapVals c (Tagged.plain v))) b).map
            (chainSeq c) := by
  induction vs with
  | nil => intro b; rfl
  | cons v vs ih =>
    intro b
    simp only [List.foldlM_cons]
    rw [chainSeq_push]
    cases b.push (wrapVals c (Tagged.plain v)) with
    | error e => rfl
    | ok b2 => exact ih b2

/-- Folding key/value pushes over a chained map builder equals folding
chain-tagged pushes over the underlying builder, re-chained. -/
theorem foldKV_chain {σ Ok Err : Type} (c : List Mode) (kvs : List (DVal × DVal)) :
    ∀ b : SerializeMap σ DVal Ok Err,
      kvs.foldlM (fun b kv => SerializeMap.pushKey b (Tagged.plain kv.1) >>= fun b =>
          SerializeMap.pushValue b (Tagged.plain kv.2)) (chainMap c b)
        = (kvs.foldlM (fun b kv =>
              SerializeMap.pushKey b (wrapVals c (Tagged.plain kv.1)) >>= fun b =>
              SerializeMap.pushValue b (wrapVals c (Tagged.plain kv.2))) b).map
            (chainMap c) := by
  induction kvs with
  | nil => intro b; rfl
  | cons kv kvs ih =>
    intro b
    simp only [List.foldlM_cons]
    rw [chainMap_pushKey]
    cases b.pushKey (wrapVals c (Tagged.plain kv.1)) with
    | error e => rfl
    | ok b2 =>
      show SerializeMap.pushValue (chainMap c b2) (Tagged.plain kv.2) >>= _
          = Except.map (chainMap c)
              (SerializeMap.pushValue b2 (wrapVals c (Tagged.plain kv.2)) >>= _)
      rw [chainMap_pushValue]
      cases b2.pushValue (wrapVals c (Tagged.plain kv.2)) with
      | error e => rfl
      | ok b3 => exact ih b3

/-- Folding field pushes over a chained struct builder equals folding
chain-tagged pushes over the underlying builder, re-chained. -/
theorem foldField_chain {σ Ok Err : Type} (c : List Mode)
    (fs : List (String × DVal)) :
    ∀ b : SerializeStruct σ DVal Ok Err,
      fs.foldlM (fun b f => SerializeStruct.pushField b f.1 (Tagged.plain f.2))
          (chainStruct c b)
        = (fs.foldlM (fun b f =>
              SerializeStruct.pushField b f.1 (wrapVals c (Tagged.plain f.2))) b).map
            (chainStruct c) := by
  induction fs with
  | nil => intro b; rfl
  | cons f fs ih =>
    intro b
    simp only [List.foldlM_cons]
    rw [chainStruct_pushField]
    cases b.pushField f.1 (wrapVals c (Tagged.plain f.2)) with
    | error e => rfl
    | ok b2 => exact ih b2

/-- Runs of a trace-engine sequence/tuple builder agree whenever the pushed
elements serialize identically. -/
theorem foldPush_step_congr (e : Serializer DVal TP) (f g : DVal → Tagged DVal) :
    ∀ (vs : List DVal) (tr : List Ev),
      (∀ v ∈ vs, serTV (f v) e = serTV (g v) e) →
      vs.foldlM (fun b v => SerializeSeq.push b (f v))
          (⟨tr, elemStep e, endStep⟩ : SerializeSeq (List Ev) DVal (List Ev) String)
        = vs.foldlM (fun b v => SerializeSeq.push b (g v)) ⟨tr, elemStep e, endStep⟩ := by
  intro vs
  induction vs with
  | nil => intro tr h; rfl
  | cons v vs ih =>
    intro tr h
    simp only [List.foldlM_cons]
    have hv := h v (List.mem_cons_self v vs)
    show (((serTV (f v) e).map fun sub => tr ++ Ev.elemEv :: sub).map _) >>= _
        = (((serTV (g v) e).map fun sub => tr ++ Ev.elemEv :: sub).map _) >>= _
    rw [hv]
    cases serTV (g v) e with
    | error err => rfl
    | ok sub =>
      exact ih (tr ++ Ev.elemEv :: sub) (fun w hw => h w (List.mem_cons_of_mem v hw))

/-- Runs of a trace-engine map builder agree whenever the pushed keys and
values serialize identically. -/
theorem foldKV_step_congr (e : Serializer DVal TP) (f g : DVal → Tagged DVal) :
    ∀ (kvs : List (DVal × DVal)) (tr : List Ev),
      (∀ kv ∈ kvs, serTV (f kv.1) e = serTV (g kv.1) e ∧
        serTV (f kv.2) e = serTV (g kv.2) e) →
      kvs.foldlM (fun b kv => SerializeMap.pushKey b (f kv.1) >>= fun b =>
          SerializeMap.pushValue b (f kv.2))
          (⟨tr, keyStep e, valueStep e, entryStep e, endStep⟩ :
            SerializeMap (List Ev) DVal (List Ev) String)
        = kvs.foldlM (fun b kv => SerializeMap.pushKey b (g kv.1) >>= fun b =>
            SerializeMap.pushValue b (g kv.2))
            ⟨tr, keyStep e, valueStep e, entryStep e, endStep⟩ := by
  intro kvs
  induction kvs with
  | nil => intro tr h; rfl
  | cons kv kvs ih =>
    intro tr h
    simp only [List.foldlM_cons]
    have hk := (h kv (List.mem_cons_self kv kvs)).1
    have hw := (h kv (List.mem_cons_self kv kvs)).2
    show ((((serTV (f kv.1) e).map fun sub => tr ++ Ev.keyEv :: sub).map _) >>= _) >>= _
        = ((((serTV (g kv.1) e).map fun sub => tr ++ Ev.keyEv :: sub).map _) >>= _) >>= _
    rw [hk]
    cases serTV (g kv.1) e with
    | error err => rfl
    | ok sub1 =>
      show (((serTV (f kv.2) e).map
            fun sub => (tr ++ Ev.keyEv :: sub1) ++ Ev.valueEv :: sub).map _) >>= _
          = (((serTV (g kv.2) e).map
            fun sub => (tr ++ Ev.keyEv :: sub1) ++ Ev.valueEv :: sub).map _) >>= _
      rw [hw]
      cases serTV (g kv.2) e with
      | error err => rfl
      | ok sub2 =>
        exact ih ((tr ++ Ev.keyEv :: sub1) ++ Ev.valueEv :: sub2)
          (fun p hp => h p (List.mem_cons_of_mem kv hp))

/-- Runs of a trace-engine struct builder agree whenever the pushed field
values serialize identically. -/
theorem foldField_step_congr (e : Serializer DVal TP) (f g : DVal → Tagged DVal) :
    ∀ (fs : List (String × DVal)) (tr : List Ev),
      (∀ fl ∈ fs, serTV (f fl.2) e = serTV (g fl.2) e) →
      fs.foldlM (fun b fl => SerializeStruct.pushField b fl.1 (f fl.2))
          (⟨tr, fieldStep e, skipStep, endStep⟩ :
            SerializeStruct (List Ev) DVal (List Ev) String)
        = fs.foldlM (fun b fl => SerializeStruct.pushField b fl.1 (g fl.2))
            ⟨tr, fieldStep e, skipStep, endStep⟩ := by
  intro fs
  induction fs with
  | nil => intro tr h; rfl
  | cons fl fs ih =>
    intro tr h
    simp only [List.foldlM_cons]
    have hv := h fl (List.mem_cons_self fl fs)
    show (((serTV (f fl.2) e).map fun sub => tr ++ Ev.fieldEv fl.1 :: sub).map _) >>= _
        = (((serTV (g fl.2) e).map fun sub => tr ++ Ev.fieldEv fl.1 :: sub).map _) >>= _
    rw [hv]
    cases serTV (g fl.2) e with
    | error err => rfl
    | ok sub =>
      exact ih (tr ++ Ev.fieldEv fl.1 :: sub) (fun p hp => h p (List.mem_cons_of_mem fl hp))

/-- `(x.map f) >>= g = x >>= (g after f)` in `>>=` form. -/
theorem exceptMapBindM {ε α β γ : Type} (f : α → β) (g : β → Except ε γ)
    (x : Except ε α) : (Except.map f x) >>= g = x >>= fun a => g (f a) := by
  cases x <;> rfl

theorem probeFree_of_mem_list : ∀ {vs : List DVal} {v : DVal},
    probeFreeList vs = true → v ∈ vs → probeFree v = true := by
  intro vs
  induction vs with
  | nil => intro v _ hv; cases hv
  | cons a vs ih =>
    intro v h hv
    rw [probeFreeList, Bool.and_eq_true] at h
    rcases List.mem_cons.mp hv with h1 | h2
    · exact h1 ▸ h.1
    · exact ih h.2 h2

theorem probeFree_of_mem_pairs : ∀ {kvs : List (DVal × DVal)} {kv : DVal × DVal},
    probeFreePairs kvs = true → kv ∈ kvs →
    probeFree kv.1 = true ∧ probeFree kv.2 = true := by
  intro kvs
  induction kvs with
  | nil => intro kv _ hv; cases hv
  | cons a kvs ih =>
    intro kv h hv
    rw [probeFreePairs, Bool.and_eq_true, Bool.and_eq_true] at h
    rcases List.mem_cons.mp hv with h1 | h2
    · subst h1
      exact h.1
    · exact ih h.2 h2

theorem probeFree_of_mem_fields : ∀ {fs : List (String × DVal)} {fl : String × DVal},
    probeFreeFields fs = true → fl ∈ fs → probeFree fl.2 = true := by
  intro fs
  induction fs with
  | nil => intro fl _ hv; cases hv
  | cons a fs ih =>
    intro fl h hv
    rw [probeFreeFields, Bool.and_eq_true] at h
    rcases List.mem_cons.mp hv with h1 | h2
    · exact h1 ▸ h.1
    · exact ih h.2 h2

/-- Master congruence: serialization against the trace engine under two stacks
of overlay layers agrees whenever the stacks have the same outermost layer
(or are both empty), or the value never consults the mode flag.  This captures
that an overlay layer's entire observable effect is the flag of the outermost
tag, and that values that do not branch on the flag serialize identically under
any stack of layers. -/
theorem serTV_chain_congr :
    ∀ (n : Nat) (tv : Tagged DVal) (c₁ c₂ : List Mode),
      c₁.head? = c₂.head? ∨ probeFreeT tv = true →
      serTV tv (wrapChain c₁ (traceSer n)) = serTV tv (wrapChain c₂ (traceSer n)) := by
  intro n
  induction n with
  | zero =>
    intro tv
    induction tv with
    | plain d =>
      intro c₁ c₂ _
      exact (serValue_fuelOut d c₁).trans (serValue_fuelOut d c₂).symm
    | readable t iht =>
      intro c₁ c₂ _
      exact iht (.readable :: c₁) (.readable :: c₂) (Or.inl rfl)
    | compact t iht =>
      intro c₁ c₂ _
      exact iht (.compact :: c₁) (.compact :: c₂) (Or.inl rfl)
  | succ n ihn =>
    intro tv
    induction tv with
    | readable t iht =>
      intro c₁ c₂ _
      exact iht (.readable :: c₁) (.readable :: c₂) (Or.inl rfl)
    | compact t iht =>
      intro c₁ c₂ _
      exact iht (.compact :: c₁) (.compact :: c₂) (Or.inl rfl)
    | plain d =>
      intro c₁ c₂ h
      cases d with
      | probe =>
        replace h : c₁.head? = c₂.head? := by
          rcases h with h | h
          · exact h
          · simp [probeFreeT, probeFree] at h
        cases c₁ with
        | nil =>
          cases c₂ with
          | nil => rfl
          | cons m c₂ => simp at h
        | cons m c₁ =>
          cases c₂ with
          | nil => simp at h
          | cons m2 c₂ =>
            have hm : m = m2 := by simpa using h
            subst hm
            show (wrapChain (m :: c₁) (traceSer (n + 1))).serialize_bool
                (wrapChain (m :: c₁) (traceSer (n + 1))).is_human_readable
              = (wrapChain (m :: c₂) (traceSer (n + 1))).serialize_bool
                (wrapChain (m :: c₂) (traceSer (n + 1))).is_human_readable
            rw [wrapChain_serialize_bool, wrapChain_serialize_bool]
            rfl
      | boolV b =>
        show (wrapChain c₁ (traceSer (n + 1))).serialize_bool b
          = (wrapChain c₂ (traceSer (n + 1))).serialize_bool b
        rw [wrapChain_serialize_bool, wrapChain_serialize_bool]
      | intV k =>
        show (wrapChain c₁ (traceSer (n + 1))).serialize_i64 k
          = (wrapChain c₂ (traceSer (n + 1))).serialize_i64 k
        rw [wrapChain_serialize_i64, wrapChain_serialize_i64]
      | strV t =>
        show (wrapChain c₁ (traceSer (n + 1))).serialize_str t
          = (wrapChain c₂ (traceSer (n + 1))).serialize_str t
        rw [wrapChain_serialize_str, wrapChain_serialize_str]
      | unitV =>
        show (wrapChain c₁ (traceSer (n + 1))).serialize_unit
          = (wrapChain c₂ (traceSer (n + 1))).serialize_unit
        rw [wrapChain_serialize_unit, wrapChain_serialize_unit]
      | noneV =>
        show (wrapChain c₁ (traceSer (n + 1))).serialize_none
          = (wrapChain c₂ (traceSer (n + 1))).serialize_none
        rw [wrapChain_serialize_none, wrapChain_serialize_none]
      | someV v =>
        have hc : c₁.head? = c₂.head? ∨ probeFreeT (Tagged.plain v) = true := by
          rcases h with h | h
          · exact Or.inl h
          · refine Or.inr ?_
            rw [probeFreeT] at h ⊢
            rw [probeFree] at h
            exact h
        show (wrapChain c₁ (traceSer (n + 1))).serialize_some (Tagged.plain v)
          = (wrapChain c₂ (traceSer (n + 1))).serialize_some (Tagged.plain v)
        rw [wrapChain_serialize_some, wrapChain_serialize_some]
        show (serTV (wrapVals c₁ (Tagged.plain v)) (traceSer n)).map _
          = (serTV (wrapVals c₂ (Tagged.plain v)) (traceSer n)).map _
        rw [serTV_wrapVals, serTV_wrapVals, ihn (Tagged.plain v) c₁ c₂ hc]
      | newtypeStructV name v =>
        have hc : c₁.head? = c₂.head? ∨ probeFreeT (Tagged.plain v) = true := by
          rcases h with h | h
          · exact Or.inl h
          · refine Or.inr ?_
            rw [probeFreeT] at h ⊢
            rw [probeFree] at h
            exact h
        show (wrapChain c₁ (traceSer (n + 1))).serialize_newtype_struct name (Tagged.plain v)
          = (wrapChain c₂ (traceSer (n + 1))).serialize_newtype_struct name (Tagged.plain v)
        rw [wrapChain_serialize_newtype_struct, wrapChain_serialize_newtype_struct]
        show (serTV (wrapVals c₁ (Tagged.plain v)) (traceSer n)).map _
          = (serTV (wrapVals c₂ (Tagged.plain v)) (traceSer n)).map _
        rw [serTV_wrapVals, serTV_wrapVals, ihn (Tagged.plain v) c₁ c₂ hc]
      | newtypeVariantV name i var v =>
        have hc : c₁.head? = c₂.head? ∨ probeFreeT (Tagged.plain v) = true := by
          rcases h with h | h
          · exact Or.inl h
          · refine Or.inr ?_
            rw [probeFreeT] at h ⊢
            rw [probeFree] at h
            exact h
        show (wrapChain c₁ (traceSer (n + 1))).serialize_newtype_variant name i var
            (Tagged.plain v)
          = (wrapChain c₂ (traceSer (n + 1))).serialize_newtype_variant name i var
            (Tagged.plain v)
        rw [wrapChain_serialize_newtype_variant, wrapChain_serialize_newtype_variant]
        show (serTV (wrapVals c₁ (Tagged.plain v)) (traceSer n)).map _
          = (serTV (wrapVals c₂ (Tagged.plain v)) (traceSer n)).map _
        rw [serTV_wrapVals, serTV_wrapVals, ihn (Tagged.plain v) c₁ c₂ hc]
      | seqV vs =>
        have hel : ∀ v ∈ vs, serTV (wrapVals c₁ (Tagged.plain v)) (traceSer n)
            = serTV (wrapVals c₂ (Tagged.plain v)) (traceSer n) := by
          intro v hv
          rw [serTV_wrapVals, serTV_wrapVals]
          refine ihn (Tagged.plain v) c₁ c₂ ?_
          rcases h with h | h
          · exact Or.inl h
          · refine Or.inr ?_
            rw [probeFreeT] at h ⊢
            rw [probeFree] at h
            exact probeFree_of_mem_list h hv
        have h2 := foldPush_step_congr (traceSer n)
          (fun v => wrapVals c₁ (Tagged.plain v)) (fun v => wrapVals c₂ (Tagged.plain v))
          vs [Ev.beginSeq (some vs.length)] hel
        show runSeqShape ((wrapChain c₁ (traceSer (n + 1))).serialize_seq (some vs.length)) vs
          = runSeqShape ((wrapChain c₂ (traceSer (n + 1))).serialize_seq (some vs.length)) vs
        rw [wrapChain_serialize_seq, wrapChain_serialize_seq]
        show (vs.foldlM (fun b v => SerializeSeq.push b (Tagged.plain v))
            (chainSeq c₁ ⟨[Ev.beginSeq (some vs.length)], elemStep (traceSer n), endStep⟩))
            >>= (fun b => SerializeSeq.stop b)
          = (vs.foldlM (fun b v => SerializeSeq.push b (Tagged.plain v))
            (chainSeq c₂ ⟨[Ev.beginSeq (some vs.length)], elemStep (traceSer n), endStep⟩))
            >>= (fun b => SerializeSeq.stop b)
        rw [foldPush_chain, foldPush_chain, exceptMapBindM, exceptMapBindM]
        simp only [chainSeq_stop]
        exact congrArg (fun x => x >>= fun b => SerializeSeq.stop b) h2
      | tupleV vs =>
        have hel : ∀ v ∈ vs, serTV (wrapVals c₁ (Tagged.plain v)) (traceSer n)
            = serTV (wrapVals c₂ (Tagged.plain v)) (traceSer n) := by
          intro v hv
          rw [serTV_wrapVals, serTV_wrapVals]
          refine ihn (Tagged.plain v) c₁ c₂ ?_
          rcases h with h | h
          · exact Or.inl h
          · refine Or.inr ?_
            rw [probeFreeT] at h ⊢
            rw [probeFree] at h
            exact probeFree_of_mem_list h hv
        have h2 := foldPush_step_congr (traceSer n)
          (fun v => wrapVals c₁ (Tagged.plain v)) (fun v => wrapVals c₂ (Tagged.plain v))
          vs [Ev.beginTuple vs.length] hel
        show runSeqShape ((wrapChain c₁ (traceSer (n + 1))).serialize_tuple vs.length) vs
          = runSeqShape ((wrapChain c₂ (traceSer (n + 1))).serialize_tuple vs.length) vs
        rw [wrapChain_serialize_tuple, wrapChain_serialize_tuple]
        show (vs.foldlM (fun b v => SerializeSeq.push b (Tagged.plain v))
            (chainSeq c₁ ⟨[Ev.beginTuple vs.length], elemStep (traceSer n), endStep⟩))
            >>= (fun b => SerializeSeq.stop b)
          = (vs.foldlM (fun b v => SerializeSeq.push b (Tagged.plain v))
            (chainSeq c₂ ⟨[Ev.beginTuple vs.length], elemStep (traceSer n), endStep⟩))
            >>= (fun b => SerializeSeq.stop b)
        rw [foldPush_chain, foldPush_chain, exceptMapBindM, exceptMapBindM]
        simp only [chainSeq_stop]
        exact congrArg (fun x => x >>= fun b => SerializeSeq.stop b) h2
      | tupleStructV name vs =>
        have hel : ∀ v ∈ vs, serTV (wrapVals c₁ (Tagged.plain v)) (traceSer n)
            = serTV (wrapVals c₂ (Tagged.plain v)) (traceSer n) := by
          intro v hv
          rw [serTV_wrapVals, serTV_wrapVals]
          refine ihn (Tagged.plain v) c₁ c₂ ?_
          rcases h with h | h
          · exact Or.inl h
          · refine Or.inr ?_
            rw [probeFreeT] at h ⊢
            rw [probeFree] at h
            exact probeFree_of_mem_list h hv
        have h2 := foldPush_step_congr (traceSer n)
          (fun v => wrapVals c₁ (Tagged.plain v)) (fun v => wrapVals c₂ (Tagged.plain v))
          vs [Ev.beginTupleStruct name vs.length] hel
        show runSeqShape
            ((wrapChain c₁ (traceSer (n + 1))).serialize_tuple_struct name vs.length) vs
          = runSeqShape
            ((wrapChain c₂ (traceSer (n + 1))).serialize_tuple_struct name vs.length) vs
        rw [wrapChain_serialize_tuple_struct, wrapChain_serialize_tuple_struct]
        show (vs.foldlM (fun b v => SerializeSeq.push b (Tagged.plain v))
            (chainSeq c₁ ⟨[Ev.beginTupleStruct name vs.length], elemStep (traceSer n),
              endStep⟩))
            >>= (fun b => SerializeSeq.stop b)
          = (vs.foldlM (fun b v => SerializeSeq.push b (Tagged.plain v))
            (chainSeq c₂ ⟨[Ev.beginTupleStruct name vs.length], elemStep (traceSer n),
              endStep⟩))
            >>= (fun b => SerializeSeq.stop b)
        rw [foldPush_chain, foldPush_chain, exceptMapBindM, exceptMapBindM]
        simp only [chainSeq_stop]
        exact congrArg (fun x => x >>= fun b => SerializeSeq.stop b) h2
      | tupleVariantV name i var vs =>
        have hel : ∀ v ∈ vs, serTV (wrapVals c₁ (Tagged.plain v)) (traceSer n)
            = serTV (wrapVals c₂ (Tagged.plain v)) (traceSer n) := by
          intro v hv
          rw [serTV_wrapVals, serTV_wrapVals]
          refine ihn (Tagged.plain v) c₁ c₂ ?_
          rcases h with h | h
          · exact Or.inl h
          · refine Or.inr ?_
            rw [probeFreeT] at h ⊢
            rw [probeFree] at h
            exact probeFree_of_mem_list h hv
        have h2 := foldPush_step_congr (traceSer n)
          (fun v => wrapVals c₁ (Tagged.plain v)) (fun v => wrapVals c₂ (Tagged.plain v))
          vs [Ev.beginTupleVariant name i var vs.length] hel
        show runSeqShape
            ((wrapChain c₁ (traceSer (n + 1))).serialize_tuple_variant name i var
              vs.length) vs
          = runSeqShape
            ((wrapChain c₂ (traceSer (n + 1))).serialize_tuple_variant name i var
              vs.length) vs
        rw [wrapChain_serialize_tuple_variant, wrapChain_serialize_tuple_variant]
        show (vs.foldlM (fun b v => SerializeSeq.push b (Tagged.plain v))
            (chainSeq c₁ ⟨[Ev.beginTupleVariant name i var vs.length],
              elemStep (traceSer n), endStep⟩))
            >>= (fun b => SerializeSeq.stop b)
          = (vs.foldlM (fun b v => SerializeSeq.push b (Tagged.plain v))
            (chainSeq c₂ ⟨[Ev.beginTupleVariant name i var vs.length],
              elemStep (traceSer n), endStep⟩))
            >>= (fun b => SerializeSeq.stop b)
        rw [foldPush_chain, foldPush_chain, exceptMapBindM, exceptMapBindM]
        simp only [chainSeq_stop]
        exact congrArg (fun x => x >>= fun b => SerializeSeq.stop b) h2
      | mapV kvs =>
        have hel : ∀ kv ∈ kvs,
            serTV (wrapVals c₁ (Tagged.plain kv.1)) (traceSer n)
              = serTV (wrapVals c₂ (Tagged.plain kv.1)) (traceSer n) ∧
            serTV (wrapVals c₁ (Tagged.plain kv.2)) (traceSer n)
              = serTV (wrapVals c₂ (Tagged.plain kv.2)) (traceSer n) := by
          intro kv hv
          have hcond : ∀ w : DVal, probeFree w = true →
              c₁.head? = c₂.head? ∨ probeFreeT (Tagged.plain w) = true := by
            intro w hw
            exact Or.inr (by rw [probeFreeT]; exact hw)
          rcases h with h | h
          · constructor
            · rw [serTV_wrapVals, serTV_wrapVals]
              exact ihn (Tagged.plain kv.1) c₁ c₂ (Or.inl h)
            · rw [serTV_wrapVals, serTV_wrapVals]
              exact ihn (Tagged.plain kv.2) c₁ c₂ (Or.inl h)
          · rw [probeFreeT] at h
            rw [probeFree] at h
            constructor
            · rw [serTV_wrapVals, serTV_wrapVals]
              exact ihn (Tagged.plain kv.1) c₁ c₂
                (hcond kv.1 (probeFree_of_mem_pairs h hv).1)
            · rw [serTV_wrapVals, serTV_wrapVals]
              exact ihn (Tagged.plain kv.2) c₁ c₂
                (hcond kv.2 (probeFree_of_mem_pairs h hv).2)
        have h2 := foldKV_step_congr (traceSer n)
          (fun v => wrapVals c₁ (Tagged.plain v)) (fun v => wrapVals c₂ (Tagged.plain v))
          kvs [Ev.beginMap (some kvs.length)] hel
        show runMapShape ((wrapChain c₁ (traceSer (n + 1))).serialize_map
            (some kvs.length)) kvs
          = runMapShape ((wrapChain c₂ (traceSer (n + 1))).serialize_map
            (some kvs.length)) kvs
        rw [wrapChain_serialize_map, wrapChain_serialize_map]
        show (kvs.foldlM (fun b kv => SerializeMap.pushKey b (Tagged.plain kv.1) >>=
            fun b => SerializeMap.pushValue b (Tagged.plain kv.2))
            (chainMap c₁ ⟨[Ev.beginMap (some kvs.length)], keyStep (traceSer n),
              valueStep (traceSer n), entryStep (traceSer n), endStep⟩))
            >>= (fun b => SerializeMap.stop b)
          = (kvs.foldlM (fun b kv => SerializeMap.pushKey b (Tagged.plain kv.1) >>=
            fun b => SerializeMap.pushValue b (Tagged.plain kv.2))
            (chainMap c₂ ⟨[Ev.beginMap (some kvs.length)], keyStep (traceSer n),
              valueStep (traceSer n), entryStep (traceSer n), endStep⟩))
            >>= (fun b => SerializeMap.stop b)
        rw [foldKV_chain, foldKV_chain, exceptMapBindM, exceptMapBindM]
        simp only [chainMap_stop]
        exact congrArg (fun x => x >>= fun b => SerializeMap.stop b) h2
      | structV name fs =>
        have hel : ∀ fl ∈ fs, serTV (wrapVals c₁ (Tagged.plain fl.2)) (traceSer n)
            = serTV (wrapVals c₂ (Tagged.plain fl.2)) (traceSer n) := by
          intro fl hv
          rw [serTV_wrapVals, serTV_wrapVals]
          refine ihn (Tagged.plain fl.2) c₁ c₂ ?_
          rcases h with h | h
          · exact Or.inl h
          · refine Or.inr ?_
            rw [probeFreeT] at h ⊢
            rw [probeFree] at h
            exact probeFree_of_mem_fields h hv
        have h2 := foldField_step_congr (traceSer n)
          (fun v => wrapVals c₁ (Tagged.plain v)) (fun v => wrapVals c₂ (Tagged.plain v))
          fs [Ev.beginStruct name fs.length] hel
        show runStructShape ((wrapChain c₁ (traceSer (n + 1))).serialize_struct name
            fs.length) fs
          = runStructShape ((wrapChain c₂ (traceSer (n + 1))).serialize_struct name
            fs.length) fs
        rw [wrapChain_serialize_struct, wrapChain_serialize_struct]
        show (fs.foldlM (fun b fl => SerializeStruct.pushField b fl.1 (Tagged.plain fl.2))
            (chainStruct c₁ ⟨[Ev.beginStruct name fs.length], fieldStep (traceSer n),
              skipStep, endStep⟩))
            >>= (fun b => SerializeStruct.stop b)
          = (fs.foldlM (fun b fl => SerializeStruct.pushField b fl.1 (Tagged.plain fl.2))
            (chainStruct c₂ ⟨[Ev.beginStruct name fs.length], fieldStep (traceSer n),
              skipStep, endStep⟩))
            >>= (fun b => SerializeStruct.stop b)
        rw [foldField_chain, foldField_chain, exceptMapBindM, exceptMapBindM]
        simp only [chainStruct_stop]
        exact congrArg (fun x => x >>= fun b => SerializeStruct.stop b) h2
      | structVariantV name i var fs =>
        have hel : ∀ fl ∈ fs, serTV (wrapVals c₁ (Tagged.plain fl.2)) (traceSer n)
            = serTV (wrapVals c₂ (Tagged.plain fl.2)) (traceSer n) := by
          intro fl hv
          rw [serTV_wrapVals, serTV_wrapVals]
          refine ihn (Tagged.plain fl.2) c₁ c₂ ?_
          rcases h with h | h
          · exact Or.inl h
          · refine Or.inr ?_
            rw [probeFreeT] at h ⊢
            rw [probeFree] at h
            exact probeFree_of_mem_fields h hv
        have h2 := foldField_step_congr (traceSer n)
          (fun v => wrapVals c₁ (Tagged.plain v)) (fun v => wrapVals c₂ (Tagged.plain v))
          fs [Ev.beginStructVariant name i var fs.length] hel
        show runStructShape ((wrapChain c₁ (traceSer (n + 1))).serialize_struct_variant
            name i var fs.length) fs
          = runStructShape ((wrapChain c₂ (traceSer (n + 1))).serialize_struct_variant
            name i var fs.length) fs
        rw [wrapChain_serialize_struct_variant, wrapChain_serialize_struct_variant]
        show (fs.foldlM (fun b fl => SerializeStruct.pushField b fl.1 (Tagged.plain fl.2))
            (chainStruct c₁ ⟨[Ev.beginStructVariant name i var fs.length],
              fieldStep (traceSer n), skipStep, endStep⟩))
            >>= (fun b => SerializeStruct.stop b)
          = (fs.foldlM (fun b fl => SerializeStruct.pushField b fl.1 (Tagged.plain fl.2))
            (chainStruct c₂ ⟨[Ev.beginStructVariant name i var fs.length],
              fieldStep (traceSer n), skipStep, endStep⟩))
            >>= (fun b => SerializeStruct.stop b)
        rw [foldField_chain, foldField_chain, exceptMapBindM, exceptMapBindM]
        simp only [chainStruct_stop]
        exact congrArg (fun x => x >>= fun b => SerializeStruct.stop b) h2

/-!
## Single-layer hand-off equations

One equation per overlay operation on builder/accessor objects, mirroring the
per-method bodies of the source impls.
-/

theorem wrapSeq_push {σ α Ok Err : Type} (m : Mode) (b : SerializeSeq σ α Ok Err)
    (v : Tagged α) :
    (wrapSeq m b).push v = (b.push (m.wrap v)).map (wrapSeq m) := by
  show (b.element b.state (m.wrap v)).map _ = ((b.element b.state (m.wrap v)).map _).map _
  cases b.element b.state (m.wrap v) <;> rfl

theorem wrapSeq_stop {σ α Ok Err : Type} (m : Mode) (b : SerializeSeq σ α Ok Err) :
    (wrapSeq m b).stop = b.stop := rfl

theorem wrapMap_pushKey {σ α Ok Err : Type} (m : Mode) (b : SerializeMap σ α Ok Err)
    (v : Tagged α) :
    (wrapMap m b).pushKey v = (b.pushKey (m.wrap v)).map (wrapMap m) := by
  show (b.key b.state (m.wrap v)).map _ = ((b.key b.state (m.wrap v)).map _).map _
  cases b.key b.state (m.wrap v) <;> rfl

theorem wrapMap_pushValue {σ α Ok Err : Type} (m : Mode) (b : SerializeMap σ α Ok Err)
    (v : Tagged α) :
    (wrapMap m b).pushValue v = (b.pushValue (m.wrap v)).map (wrapMap m) := by
  show (b.value b.state (m.wrap v)).map _ = ((b.value b.state (m.wrap v)).map _).map _
  cases b.value b.state (m.wrap v) <;> rfl

theorem wrapMap_pushEntry {σ α Ok Err : Type} (m : Mode) (b : SerializeMap σ α Ok Err)
    (k v : Tagged α) :
    (wrapMap m b).pushEntry k v
      = (b.pushEntry (m.wrap k) (m.wrap v)).map (wrapMap m) := by
  show (b.entry b.state (m.wrap k) (m.wrap v)).map _
    = ((b.entry b.state (m.wrap k) (m.wrap v)).map _).map _
  cases b.entry b.state (m.wrap k) (m.wrap v) <;> rfl

theorem wrapMap_stop {σ α Ok Err : Type} (m : Mode) (b : SerializeMap σ α Ok Err) :
    (wrapMap m b).stop = b.stop := rfl

theorem wrapStruct_pushField {σ α Ok Err : Type} (m : Mode)
    (b : SerializeStruct σ α Ok Err) (name : String) (v : Tagged α) :
    (wrapStruct m b).pushField name v
      = (b.pushField name (m.wrap v)).map (wrapStruct m) := by
  show (b.field b.state name (m.wrap v)).map _
    = ((b.field b.state name (m.wrap v)).map _).map _
  cases b.field b.state name (m.wrap v) <;> rfl

theorem wrapStruct_skipField {σ α Ok Err : Type} (m : Mode)
    (b : SerializeStruct σ α Ok Err) (name : String) :
    (wrapStruct m b).skipField name = (b.skipField name).map (wrapStruct m) := by
  show (b.skip b.state name).map _ = ((b.skip b.state name).map _).map _
  cases b.skip b.state name <;> rfl

theorem wrapStruct_stop {σ α Ok Err : Type} (m : Mode)
    (b : SerializeStruct σ α Ok Err) : (wrapStruct m b).stop = b.stop := rfl

theorem wrapSeqAccess_nextElement {Q : DP} (m : Mode) (a : SeqAccess Q)
    (seed : Tagged Q.Sd) :
    (wrapSeqAccess m a).nextElement seed
      = (a.nextElement (m.wrap seed)).map (fun p => (p.1, wrapSeqAccess m p.2)) := by
  show (a.next_element_seed a.state (m.wrap seed)).map _
    = ((a.next_element_seed a.state (m.wrap seed)).map _).map _
  cases a.next_element_seed a.state (m.wrap seed) <;> rfl

theorem wrapSeqAccess_hint {Q : DP} (m : Mode) (a : SeqAccess Q) :
    (wrapSeqAccess m a).hint = a.hint := rfl

theorem wrapMapAccess_nextKey {Q : DP} (m : Mode) (a : MapAccess Q)
    (seed : Tagged Q.Sd) :
    (wrapMapAccess m a).nextKey seed
      = (a.nextKey (m.wrap seed)).map (fun p => (p.1, wrapMapAccess m p.2)) := by
  show (a.next_key_seed a.state (m.wrap seed)).map _
    = ((a.next_key_seed a.state (m.wrap seed)).map _).map _
  cases a.next_key_seed a.state (m.wrap seed) <;> rfl

theorem wrapMapAccess_nextValue {Q : DP} (m : Mode) (a : MapAccess Q)
    (seed : Tagged Q.Sd) :
    (wrapMapAccess m a).nextValue seed
      = (a.nextValue (m.wrap seed)).map (fun p => (p.1, wrapMapAccess m p.2)) := by
  show (a.next_value_seed a.state (m.wrap seed)).map _
    = ((a.next_value_seed a.state (m.wrap seed)).map _).map _
  cases a.next_value_seed a.state (m.wrap seed) <;> rfl

theorem wrapMapAccess_nextEntry {Q : DP} (m : Mode) (a : MapAccess Q)
    (kseed vseed : Tagged Q.Sd) :
    (wrapMapAccess m a).nextEntry kseed vseed
      = (a.nextEntry (m.wrap kseed) (m.wrap vseed)).map
          (fun p => (p.1, wrapMapAccess m p.2)) := by
  show (a.next_entry_seed a.state (m.wrap kseed) (m.wrap vseed)).map _
    = ((a.next_entry_seed a.state (m.wrap kseed) (m.wrap vseed)).map _).map _
  cases a.next_entry_seed a.state (m.wrap kseed) (m.wrap vseed) <;> rfl

theorem wrapEnumAccess_variantSeed {Q : DP} (m : Mode) (a : EnumAccess Q)
    (seed : Tagged Q.Sd) :
    (wrapEnumAccess m a).variant_seed seed
      = (a.variant_seed (m.wrap seed)).map (fun p => (p.1, wrapVariantAccess m p.2)) :=
  rfl

/-- One hand-off step preserves being wrapped in the tag variant `m`. -/
theorem wrapped_step {α : Type} {P : SP} {Q : DP} {m : Mode} {o o2 : SObj α P Q}
    (hw : Wrapped m o) (hs : Produces o o2) : Wrapped m o2 := by
  cases hs with
  | seq_begin hop =>
    obtain ⟨s0, rfl⟩ := hw
    obtain ⟨b0, _, rfl⟩ := exceptMap_eq_ok hop
    exact ⟨b0, rfl⟩
  | tuple_begin hop =>
    obtain ⟨s0, rfl⟩ := hw
    obtain ⟨b0, _, rfl⟩ := exceptMap_eq_ok hop
    exact ⟨b0, rfl⟩
  | tuple_struct_begin hop =>
    obtain ⟨s0, rfl⟩ := hw
    obtain ⟨b0, _, rfl⟩ := exceptMap_eq_ok hop
    exact ⟨b0, rfl⟩
  | tuple_variant_begin hop =>
    obtain ⟨s0, rfl⟩ := hw
    obtain ⟨b0, _, rfl⟩ := exceptMap_eq_ok hop
    exact ⟨b0, rfl⟩
  | map_begin hop =>
    obtain ⟨s0, rfl⟩ := hw
    obtain ⟨b0, _, rfl⟩ := exceptMap_eq_ok hop
    exact ⟨b0, rfl⟩
  | struct_begin hop =>
    obtain ⟨s0, rfl⟩ := hw
    obtain ⟨b0, _, rfl⟩ := exceptMap_eq_ok hop
    exact ⟨b0, rfl⟩
  | struct_variant_begin hop =>
    obtain ⟨s0, rfl⟩ := hw
    obtain ⟨b0, _, rfl⟩ := exceptMap_eq_ok hop
    exact ⟨b0, rfl⟩
  | seq_push hop =>
    obtain ⟨b0, rfl⟩ := hw
    rw [wrapSeq_push] at hop
    obtain ⟨b1, _, rfl⟩ := exceptMap_eq_ok hop
    exact ⟨b1, rfl⟩
  | tuple_push hop =>
    obtain ⟨b0, rfl⟩ := hw
    rw [wrapSeq_push] at hop
    obtain ⟨b1, _, rfl⟩ := exceptMap_eq_ok hop
    exact ⟨b1, rfl⟩
  | tuple_struct_push hop =>
    obtain ⟨b0, rfl⟩ := hw
    rw [wrapSeq_push] at hop
    obtain ⟨b1, _, rfl⟩ := exceptMap_eq_ok hop
    exact ⟨b1, rfl⟩
  | tuple_variant_push hop =>
    obtain ⟨b0, rfl⟩ := hw
    rw [wrapSeq_push] at hop
    obtain ⟨b1, _, rfl⟩ := exceptMap_eq_ok hop
    exact ⟨b1, rfl⟩
  | map_key_push hop =>
    obtain ⟨b0, rfl⟩ := hw
    rw [wrapMap_pushKey] at hop
    obtain ⟨b1, _, rfl⟩ := exceptMap_eq_ok hop
    exact ⟨b1, rfl⟩
  | map_value_push hop =>
    obtain ⟨b0, rfl⟩ := hw
    rw [wrapMap_pushValue] at hop
    obtain ⟨b1, _, rfl⟩ := exceptMap_eq_ok hop
    exact ⟨b1, rfl⟩
  | map_entry_push hop =>
    obtain ⟨b0, rfl⟩ := hw
    rw [wrapMap_pushEntry] at hop
    obtain ⟨b1, _, rfl⟩ := exceptMap_eq_ok hop
    exact ⟨b1, rfl⟩
  | struct_field_push hop =>
    obtain ⟨b0, rfl⟩ := hw
    rw [wrapStruct_pushField] at hop
    obtain ⟨b1, _, rfl⟩ := exceptMap_eq_ok hop
    exact ⟨b1, rfl⟩
  | struct_skip_push hop =>
    obtain ⟨b0, rfl⟩ := hw
    rw [wrapStruct_skipField] at hop
    obtain ⟨b1, _, rfl⟩ := exceptMap_eq_ok hop
    exact ⟨b1, rfl⟩
  | struct_variant_field_push hop =>
    obtain ⟨b0, rfl⟩ := hw
    rw [wrapStruct_pushField] at hop
    obtain ⟨b1, _, rfl⟩ := exceptMap_eq_ok hop
    exact ⟨b1, rfl⟩
  | struct_variant_skip_push hop =>
    obtain ⟨b0, rfl⟩ := hw
    rw [wrapStruct_skipField] at hop
    obtain ⟨b1, _, rfl⟩ := exceptMap_eq_ok hop
    exact ⟨b1, rfl⟩
  | enum_variant hop =>
    obtain ⟨a0, rfl⟩ := hw
    rw [wrapEnumAccess_variantSeed] at hop
    obtain ⟨p, _, hpair⟩ := exceptMap_eq_ok hop
    exact ⟨p.2, congrArg Prod.snd hpair⟩
  | seqacc_next hop =>
    obtain ⟨a0, rfl⟩ := hw
    rw [wrapSeqAccess_nextElement] at hop
    obtain ⟨p, _, hpair⟩ := exceptMap_eq_ok hop
    exact ⟨p.2, congrArg Prod.snd hpair⟩
  | mapacc_key hop =>
    obtain ⟨a0, rfl⟩ := hw
    rw [wrapMapAccess_nextKey] at hop
    obtain ⟨p, _, hpair⟩ := exceptMap_eq_ok hop
    exact ⟨p.2, congrArg Prod.snd hpair⟩
  | mapacc_value hop =>
    obtain ⟨a0, rfl⟩ := hw
    rw [wrapMapAccess_nextValue] at hop
    obtain ⟨p, _, hpair⟩ := exceptMap_eq_ok hop
    exact ⟨p.2, congrArg Prod.snd hpair⟩
  | mapacc_entry hop =>
    obtain ⟨a0, rfl⟩ := hw
    rw [wrapMapAccess_nextEntry] at hop
    obtain ⟨p, _, hpair⟩ := exceptMap_eq_ok hop
    exact ⟨p.2, congrArg Prod.snd hpair⟩

/-- C1: mode-propagation invariant.  First conjunct: every capability object
reachable from a tag-variant-`m` overlay object through any chain of
successful aggregate operations (all seven begin operations, all builder
continuation operations, accessor steps, enum-to-variant-accessor resolution)
is itself wrapped in the same tag variant `m`, at any depth.  The remaining
conjuncts: every nested value, seed, visitor, accessor, deserializer or engine
handed onward by an overlay operation is wrapped in the same tag variant
before delegation, at every hand-off point of the write side and read side. -/
theorem claim1_mode_propagation {α : Type} {P : SP} {Q : DP} (m : Mode) :
    (∀ o o2 : SObj α P Q, Wrapped m o → Relation.ReflTransGen Produces o o2 →
      Wrapped m o2) ∧
    (∀ (s : Serializer α P) (v : Tagged α),
      (wrapSerializer m s).serialize_some v = s.serialize_some (m.wrap v)) ∧
    (∀ (s : Serializer α P) name v,
      (wrapSerializer m s).serialize_newtype_struct name v
        = s.serialize_newtype_struct name (m.wrap v)) ∧
    (∀ (s : Serializer α P) name i var v,
      (wrapSerializer m s).serialize_newtype_variant name i var v
        = s.serialize_newtype_variant name i var (m.wrap v)) ∧
    (∀ (σ O2 E2 : Type) (b : SerializeSeq σ α O2 E2) st v,
      (wrapSeq m b).element st v = b.element st (m.wrap v)) ∧
    (∀ (σ O2 E2 : Type) (b : SerializeMap σ α O2 E2) st v,
      (wrapMap m b).key st v = b.key st (m.wrap v)) ∧
    (∀ (σ O2 E2 : Type) (b : SerializeMap σ α O2 E2) st v,
      (wrapMap m b).value st v = b.value st (m.wrap v)) ∧
    (∀ (σ O2 E2 : Type) (b : SerializeMap σ α O2 E2) st k v,
      (wrapMap m b).entry st k v = b.entry st (m.wrap k) (m.wrap v)) ∧
    (∀ (σ O2 E2 : Type) (b : SerializeStruct σ α O2 E2) st name v,
      (wrapStruct m b).field st name v = b.field st name (m.wrap v)) ∧
    (∀ (d : Deserializer Q) v,
      (wrapDeserializer m d).deserialize_any v = d.deserialize_any (wrapVisitor m v)) ∧
    (∀ (d : Deserializer Q) v,
      (wrapDeserializer m d).deserialize_option v
        = d.deserialize_option (wrapVisitor m v)) ∧
    (∀ (d : Deserializer Q) name fields v,
      (wrapDeserializer m d).deserialize_struct name fields v
        = d.deserialize_struct name fields (wrapVisitor m v)) ∧
    (∀ (d : Deserializer Q) name variants v,
      (wrapDeserializer m d).deserialize_enum name variants v
        = d.deserialize_enum name variants (wrapVisitor m v)) ∧
    (∀ (v : Visitor Q) dh, (wrapVisitor m v).visit_some dh = v.visit_some (m.wrap dh)) ∧
    (∀ (v : Visitor Q) dh,
      (wrapVisitor m v).visit_newtype_struct dh = v.visit_newtype_struct (m.wrap dh)) ∧
    (∀ (v : Visitor Q) a, (wrapVisitor m v).visit_seq a = v.visit_seq (m.wrap a)) ∧
    (∀ (v : Visitor Q) a, (wrapVisitor m v).visit_map a = v.visit_map (m.wrap a)) ∧
    (∀ (v : Visitor Q) a, (wrapVisitor m v).visit_enum a = v.visit_enum (m.wrap a)) ∧
    (∀ (a : SeqAccess Q) st sd,
      (wrapSeqAccess m a).next_element_seed st sd = a.next_element_seed st (m.wrap sd)) ∧
    (∀ (a : MapAccess Q) st sd,
      (wrapMapAccess m a).next_key_seed st sd = a.next_key_seed st (m.wrap sd)) ∧
    (∀ (a : MapAccess Q) st sd,
      (wrapMapAccess m a).next_value_seed st sd = a.next_value_seed st (m.wrap sd)) ∧
    (∀ (a : MapAccess Q) st k v,
      (wrapMapAccess m a).next_entry_seed st k v
        = a.next_entry_seed st (m.wrap k) (m.wrap v)) ∧
    (∀ (a : EnumAccess Q) sd,
      (wrapEnumAccess m a).variant_seed sd
        = (a.variant_seed (m.wrap sd)).map (fun p => (p.1, wrapVariantAccess m p.2))) ∧
    (∀ (a : VariantAccess Q) sd,
      (wrapVariantAccess m a).newtype_variant_seed sd
        = a.newtype_variant_seed (m.wrap sd)) ∧
    (∀ (a : VariantAccess Q) len v,
      (wrapVariantAccess m a).tuple_variant len v
        = a.tuple_variant len (wrapVisitor m v)) ∧
    (∀ (a : VariantAccess Q) fields v,
      (wrapVariantAccess m a).struct_variant fields v
        = a.struct_variant fields (wrapVisitor m v)) ∧
    (∀ (τ : Type) (run : Deserializer Q → Except Q.Err τ) (d : Deserializer Q),
      taggedSeedDeserialize m run d = run (wrapDeserializer m d)) ∧
    (∀ (τ : Type) (deT : Deserializer Q → Except Q.Err τ) (d : Deserializer Q),
      taggedDeserialize m deT d
        = (deT (wrapDeserializer m d)).map (fun t => (m, t))) ∧
    (∀ (serA : α → Serializer α P → Except P.Err P.Ok) (tv : Tagged α)
      (s : Serializer α P),
      serializeTagged serA (m.wrap tv) s = serializeTagged serA tv (wrapSerializer m s)) :=
  ⟨by
    intro o o2 hw hr
    induction hr with
    | refl => exact hw
    | tail _ hstep ih => exact wrapped_step ih hstep,
   fun s v => rfl, fun s name v => rfl, fun s name i var v => rfl,
   fun σ O2 E2 b st v => rfl, fun σ O2 E2 b st v => rfl, fun σ O2 E2 b st v => rfl,
   fun σ O2 E2 b st k v => rfl, fun σ O2 E2 b st name v => rfl,
   fun d v => rfl, fun d v => rfl, fun d name fields v => rfl,
   fun d name variants v => rfl,
   fun v dh => rfl, fun v dh => rfl, fun v a => rfl, fun v a => rfl, fun v a => rfl,
   fun a st sd => rfl, fun a st sd => rfl, fun a st sd => rfl, fun a st k v => rfl,
   fun a sd => rfl, fun a sd => rfl, fun a len v => rfl, fun a fields v => rfl,
   fun τ run d => rfl, fun τ deT d => rfl,
   fun serA tv s => by cases m <;> rfl⟩

/-- Witness for C1: starting from the trivial engine wrapped `Readable`, a
two-step chain (begin a sequence, push one element) lands on an object that is
again wrapped `Readable`. -/
theorem claim1_witness :
    Wrapped (α := Unit) (P := PU) (Q := QU) Mode.readable
      (SObj.seqB (wrapSeq Mode.readable trivSeqB)) :=
  (claim1_mode_propagation Mode.readable).1
    (SObj.ser (wrapSerializer Mode.readable trivSer))
    (SObj.seqB (wrapSeq Mode.readable trivSeqB))
    ⟨trivSer, rfl⟩
    (Relation.ReflTransGen.tail
      (Relation.ReflTransGen.single
        (@Produces.seq_begin Unit PU QU (wrapSerializer Mode.readable trivSer) none
          (wrapSeq Mode.readable trivSeqB) rfl))
      (@Produces.seq_push Unit PU QU (wrapSeq Mode.readable trivSeqB)
        (Tagged.plain ()) (wrapSeq Mode.readable trivSeqB) rfl))

/-- C2: mode fidelity: `is_human_readable` on a `Readable` overlay is `true`
and on a `Compact` overlay is `false`, on both the write side and the read
side, regardless of the wrapped engine's own flag; under a stack of overlay
layers the outermost tag's flag is reported; and a value that queries the
flag (`DVal.probe`) observes exactly the tag's flag. -/
theorem claim2_mode_fidelity {α : Type} {P : SP} {Q : DP} :
    (∀ s : Serializer α P, (wrapSerializer Mode.readable s).is_human_readable = true) ∧
    (∀ s : Serializer α P, (wrapSerializer Mode.compact s).is_human_readable = false) ∧
    (∀ d : Deserializer Q, (wrapDeserializer Mode.readable d).is_human_readable = true) ∧
    (∀ d : Deserializer Q, (wrapDeserializer Mode.compact d).is_human_readable = false) ∧
    (∀ (m : Mode) (s : Serializer α P) (b : Bool),
      (wrapSerializer m { s with is_human_readable := b }).is_human_readable = m.flag) ∧
    (∀ (m : Mode) (d : Deserializer Q) (b : Bool),
      (wrapDeserializer m { d with is_human_readable := b }).is_human_readable = m.flag) ∧
    (∀ (m : Mode) (c : List Mode) (s : Serializer α P),
      (wrapChain (m :: c) s).is_human_readable = m.flag) ∧
    (∀ (m : Mode) (e : Serializer DVal P),
      serValue DVal.probe (wrapSerializer m e) = e.serialize_bool m.flag) :=
  ⟨fun s => rfl, fun s => rfl, fun d => rfl, fun d => rfl,
   fun m s b => rfl, fun m d b => rfl, fun m c s => rfl, fun m e => rfl⟩

/-- C3: error transparency: on every overlay operation (write side: scalar,
single-value, aggregate-begin, builder continuation and finalize; read side:
dispatch, accessors, tagged deserialize), the overlay returns an error exactly
when the delegated inner operation returns an error, and it is the identical
error value; the overlay never constructs an error of its own. -/
theorem claim3_error_transparency {α : Type} {P : SP} {Q : DP} (m : Mode) :
    (∀ (s : Serializer α P) b e,
      (wrapSerializer m s).serialize_bool b = .error e ↔ s.serialize_bool b = .error e) ∧
    (∀ (s : Serializer α P) v e,
      (wrapSerializer m s).serialize_some v = .error e ↔
        s.serialize_some (m.wrap v) = .error e) ∧
    (∀ (s : Serializer α P) len e,
      (wrapSerializer m s).serialize_seq len = .error e ↔
        s.serialize_seq len = .error e) ∧
    (∀ (s : Serializer α P) name len e,
      (wrapSerializer m s).serialize_struct name len = .error e ↔
        s.serialize_struct name len = .error e) ∧
    (∀ (σ O2 E2 : Type) (b : SerializeSeq σ α O2 E2) v e,
      (wrapSeq m b).push v = .error e ↔ b.push (m.wrap v) = .error e) ∧
    (∀ (σ O2 E2 : Type) (b : SerializeSeq σ α O2 E2) e,
      (wrapSeq m b).stop = .error e ↔ b.stop = .error e) ∧
    (∀ (σ O2 E2 : Type) (b : SerializeStruct σ α O2 E2) name v e,
      (wrapStruct m b).pushField name v = .error e ↔
        b.pushField name (m.wrap v) = .error e) ∧
    (∀ (d : Deserializer Q) v e,
      (wrapDeserializer m d).deserialize_any v = .error e ↔
        d.deserialize_any (wrapVisitor m v) = .error e) ∧
    (∀ (a : EnumAccess Q) sd e,
      (wrapEnumAccess m a).variant_seed sd = .error e ↔
        a.variant_seed (m.wrap sd) = .error e) ∧
    (∀ (a : SeqAccess Q) sd e,
      (wrapSeqAccess m a).nextElement sd = .error e ↔
        a.nextElement (m.wrap sd) = .error e) ∧
    (∀ (τ : Type) (deT : Deserializer Q → Except Q.Err τ) (d : Deserializer Q) e,
      taggedDeserialize m deT d = .error e ↔ deT (wrapDeserializer m d) = .error e) :=
  ⟨fun s b e => Iff.rfl,
   fun s v e => Iff.rfl,
   fun s len e => exceptMap_eq_error,
   fun s name len e => exceptMap_eq_error,
   fun σ O2 E2 b v e => by rw [wrapSeq_push]; exact exceptMap_eq_error,
   fun σ O2 E2 b e => Iff.rfl,
   fun σ O2 E2 b name v e => by rw [wrapStruct_pushField]; exact exceptMap_eq_error,
   fun d v e => Iff.rfl,
   fun a sd e => by rw [wrapEnumAccess_variantSeed]; exact exceptMap_eq_error,
   fun a sd e => by rw [wrapSeqAccess_nextElement]; exact exceptMap_eq_error,
   fun τ deT d e => by rw [taggedDeserialize]; exact exceptMap_eq_error⟩

/-- Witness for C3: the engine whose sequence-begin fails with message
`"boom"` makes the `Readable` overlay fail with exactly `"boom"`. -/
theorem claim3_witness :
    (wrapSerializer Mode.readable errSer).serialize_seq none
      = Except.error "boom" :=
  ((claim3_error_transparency (α := Unit) (P := PU) (Q := QU)
    Mode.readable).2.2.1 errSer none "boom").mpr rfl

/-- C4: pass-through purity on both sides.  Write side: for every value whose
serialization logic never consults the mode flag, the complete operation
trace the recursive write-side trace engine observes (operations, arguments,
order, at all depths) is identical with and without the overlay.  Read side:
for every dispatch request (all 31 dispatch operations, with their
name/arity/field-list arguments) and every scripted input behavior of the
recording read-side engine (including engine failure), the trace of the
dispatch the inner engine observes and of the acceptance calls it makes on
the recording visitor — and the result, errors included — is identical with
and without the overlay; a nested dispatch reached through a same-tag-wrapped
seed produces that same trace; and the recording sequence/map accessors see
the same operations with the same state evolution through the overlay.  Only
the mode-query answer and the identity of wrapper objects (wrapped visitors,
handles and seeds) differ, as the property's carve-out allows. -/
theorem claim4_pass_through_purity :
    (∀ (m : Mode) (n : Nat) (v : DVal), probeFree v = true →
      serValue v (wrapSerializer m (traceSer n)) = serValue v (traceSer n)) ∧
    (∀ (m : Mode) (inp : RIn) (req : RReq),
      runReq req (wrapDeserializer m (recDeser inp)) = runReq req (recDeser inp)) ∧
    (∀ (m : Mode) (inp : RIn) (req : RReq),
      taggedSeedDeserialize m (runReq req) (recDeser inp)
        = runReq req (recDeser inp)) ∧
    (∀ (m : Mode) (tr : List REv) (sd : Tagged QT.Sd),
      (wrapSeqAccess m (recSeqAcc tr)).nextElement sd
        = (recSeqAcc tr).nextElement sd) ∧
    (∀ (m : Mode) (tr : List REv), (wrapSeqAccess m (recSeqAcc tr)).hint
      = (recSeqAcc tr).hint) ∧
    (∀ (m : Mode) (tr : List REv) (k v : Tagged QT.Sd),
      (wrapMapAccess m (recMapAcc tr)).nextKey k = (recMapAcc tr).nextKey k ∧
      (wrapMapAccess m (recMapAcc tr)).nextValue v = (recMapAcc tr).nextValue v ∧
      (wrapMapAccess m (recMapAcc tr)).nextEntry k v
        = (recMapAcc tr).nextEntry k v) :=
  ⟨fun m n v h =>
    serTV_chain_congr n (Tagged.plain v) [m] []
      (Or.inr (by rw [probeFreeT]; exact h)),
   fun m inp req => by cases req <;> cases inp <;> rfl,
   fun m inp req => by cases req <;> cases inp <;> rfl,
   fun m tr sd => rfl,
   fun m tr => rfl,
   fun m tr k v => ⟨rfl, rfl, rfl⟩⟩

/-- Witness for C4: the spec's scenario value, a two-field struct serialized
`Compact`, yields the same write-side trace with and without the overlay;
and the spec's read-side scenario, requesting an optional value tagged
`Readable` from an input holding an optional-present payload, yields the
same read-side trace with and without the overlay. -/
theorem claim4_witness :
    probeFree (DVal.structV "X" [("a", DVal.intV 1), ("b", DVal.intV 2)]) = true ∧
    serValue (DVal.structV "X" [("a", DVal.intV 1), ("b", DVal.intV 2)])
        (wrapSerializer Mode.compact (traceSer 2))
      = serValue (DVal.structV "X" [("a", DVal.intV 1), ("b", DVal.intV 2)])
          (traceSer 2) ∧
    runReq RReq.rOption (wrapDeserializer Mode.readable (recDeser RIn.inSome))
      = runReq RReq.rOption (recDeser RIn.inSome) ∧
    runReq RReq.rOption (recDeser RIn.inSome) = .ok [REv.dOption, REv.vSome] :=
  ⟨by decide,
   claim4_pass_through_purity.1 Mode.compact 2
     (DVal.structV "X" [("a", DVal.intV 1), ("b", DVal.intV 2)]) (by decide),
   claim4_pass_through_purity.2.1 Mode.readable RIn.inSome RReq.rOption,
   rfl⟩

/-- C5: each of the seven aggregate-begin operations on a tagged serializer
invokes the same operation with the same length/name/index/variant arguments
on the inner engine and maps the same-tag builder wrapper over the result, so
a successful builder is re-wrapped and an error is returned unchanged. -/
theorem claim5_aggregate_begin {α : Type} {P : SP} (m : Mode) (s : Serializer α P) :
    (∀ len, (wrapSerializer m s).serialize_seq len
      = (s.serialize_seq len).map (wrapSeq m)) ∧
    (∀ len, (wrapSerializer m s).serialize_tuple len
      = (s.serialize_tuple len).map (wrapSeq m)) ∧
    (∀ name len, (wrapSerializer m s).serialize_tuple_struct name len
      = (s.serialize_tuple_struct name len).map (wrapSeq m)) ∧
    (∀ name i var len, (wrapSerializer m s).serialize_tuple_variant name i var len
      = (s.serialize_tuple_variant name i var len).map (wrapSeq m)) ∧
    (∀ len, (wrapSerializer m s).serialize_map len
      = (s.serialize_map len).map (wrapMap m)) ∧
    (∀ name len, (wrapSerializer m s).serialize_struct name len
      = (s.serialize_struct name len).map (wrapStruct m)) ∧
    (∀ name i var len, (wrapSerializer m s).serialize_struct_variant name i var len
      = (s.serialize_struct_variant name i var len).map (wrapStruct m)) :=
  ⟨fun len => rfl, fun len => rfl, fun name len => rfl, fun name i var len => rfl,
   fun len => rfl, fun name len => rfl, fun name i var len => rfl⟩

/-- C6: every scalar encode operation of a tagged serializer (bool, the five
signed and five unsigned integer widths, the two float widths, char, str,
bytes, unit struct, unit, unit variant) is the inner engine's operation
itself: arguments forwarded verbatim with no re-wrapping, result returned
unchanged. -/
theorem claim6_scalar_forwarding {α : Type} {P : SP} (m : Mode) (s : Serializer α P) :
    (wrapSerializer m s).serialize_bool = s.serialize_bool ∧
    (wrapSerializer m s).serialize_i8 = s.serialize_i8 ∧
    (wrapSerializer m s).serialize_i16 = s.serialize_i16 ∧
    (wrapSerializer m s).serialize_i32 = s.serialize_i32 ∧
    (wrapSerializer m s).serialize_i64 = s.serialize_i64 ∧
    (wrapSerializer m s).serialize_i128 = s.serialize_i128 ∧
    (wrapSerializer m s).serialize_u8 = s.serialize_u8 ∧
    (wrapSerializer m s).serialize_u16 = s.serialize_u16 ∧
    (wrapSerializer m s).serialize_u32 = s.serialize_u32 ∧
    (wrapSerializer m s).serialize_u64 = s.serialize_u64 ∧
    (wrapSerializer m s).serialize_u128 = s.serialize_u128 ∧
    (wrapSerializer m s).serialize_f32 = s.serialize_f32 ∧
    (wrapSerializer m s).serialize_f64 = s.serialize_f64 ∧
    (wrapSerializer m s).serialize_char = s.serialize_char ∧
    (wrapSerializer m s).serialize_str = s.serialize_str ∧
    (wrapSerializer m s).serialize_bytes = s.serialize_bytes ∧
    (wrapSerializer m s).serialize_unit_struct = s.serialize_unit_struct ∧
    (wrapSerializer m s).serialize_unit = s.serialize_unit ∧
    (wrapSerializer m s).serialize_unit_variant = s.serialize_unit_variant :=
  ⟨rfl, rfl, rfl, rfl, rfl, rfl, rfl, rfl, rfl, rfl, rfl, rfl, rfl, rfl, rfl, rfl,
   rfl, rfl, rfl⟩

/-- C7: `variant_seed` on a tagged enum accessor wraps the caller's seed in
the same tag variant before delegating, and on success re-wraps the returned
variant accessor in the same tag variant while returning the variant value
itself unchanged; on failure the inner error is returned unchanged. -/
theorem claim7_enum_rewrap {Q : DP} (m : Mode) (a : EnumAccess Q)
    (seed : Tagged Q.Sd) :
    ((wrapEnumAccess m a).variant_seed seed
      = (a.variant_seed (m.wrap seed)).map (fun p => (p.1, wrapVariantAccess m p.2))) ∧
    (∀ w va, a.variant_seed (m.wrap seed) = .ok (w, va) →
      (wrapEnumAccess m a).variant_seed seed = .ok (w, wrapVariantAccess m va)) ∧
    (∀ e, a.variant_seed (m.wrap seed) = .error e →
      (wrapEnumAccess m a).variant_seed seed = .error e) :=
  ⟨rfl,
   fun w va h => by rw [wrapEnumAccess_variantSeed, h]; rfl,
   fun e h => by rw [wrapEnumAccess_variantSeed, h]; rfl⟩

/-- Witness for C7: the trivial enum accessor wrapped `Readable` resolves the
seed to the unchanged variant value `7` paired with the `Readable`-wrapped
variant accessor. -/
theorem claim7_witness :
    (wrapEnumAccess Mode.readable trivEnumAcc).variant_seed (Tagged.plain ())
      = .ok (7, wrapVariantAccess Mode.readable trivVarAcc) :=
  (claim7_enum_rewrap Mode.readable trivEnumAcc (Tagged.plain ())).2.1 7 trivVarAcc rfl

/-- C8: double-wrapping algebra over the recursive trace engine: wrapping an
already-`Readable` value again with `Readable` (or `Compact` with `Compact`)
produces the identical observable trace, and stacking different tags makes
the tag applied closest to the value (the innermost one) the observed one —
concretely, a flag probe under `Compact(Readable(x))` records `true` and
under `Readable(Compact(x))` records `false`. -/
theorem claim8_double_wrap (n : Nat) (tv : Tagged DVal) :
    (serTV (Tagged.readable (Tagged.readable tv)) (traceSer n)
      = serTV (Tagged.readable tv) (traceSer n)) ∧
    (serTV (Tagged.compact (Tagged.compact tv)) (traceSer n)
      = serTV (Tagged.compact tv) (traceSer n)) ∧
    (serTV (Tagged.readable (Tagged.compact tv)) (traceSer n)
      = serTV (Tagged.compact tv) (traceSer n)) ∧
    (serTV (Tagged.compact (Tagged.readable tv)) (traceSer n)
      = serTV (Tagged.readable tv) (traceSer n)) ∧
    (serTV (Tagged.compact (Tagged.readable (Tagged.plain DVal.probe))) (traceSer 1)
      = .ok [Ev.bool true]) ∧
    (serTV (Tagged.readable (Tagged.compact (Tagged.plain DVal.probe))) (traceSer 1)
      = .ok [Ev.bool false]) :=
  ⟨serTV_chain_congr n tv [.readable, .readable] [.readable] (Or.inl rfl),
   serTV_chain_congr n tv [.compact, .compact] [.compact] (Or.inl rfl),
   serTV_chain_congr n tv [.compact, .readable] [.compact] (Or.inl rfl),
   serTV_chain_congr n tv [.readable, .compact] [.readable] (Or.inl rfl),
   rfl, rfl⟩

/-- C9: `collect_seq` on a tagged serializer hands the inner engine the lazily
mapped iterator whose elements are wrapped in the same tag variant on demand,
`collect_map` wraps both components of each drawn pair, and `collect_str`
forwards its displayable argument verbatim; the mapped iterator keeps the
source's state and performs exactly one pull on the source per pull. -/
theorem claim9_collect {α : Type} {P : SP} (m : Mode) (s : Serializer α P) :
    (∀ it, (wrapSerializer m s).collect_seq it = s.collect_seq (it.mapIt m.wrap)) ∧
    (∀ it, (wrapSerializer m s).collect_map it
      = s.collect_map (it.mapIt (fun kv => (m.wrap kv.1, m.wrap kv.2)))) ∧
    (∀ t, (wrapSerializer m s).collect_str t = s.collect_str t) ∧
    (∀ (ι V V2 : Type) (f : V → V2) (it : Iter ι V),
      (it.mapIt f).state = it.state ∧
      ∀ st, (it.mapIt f).next st = (it.next st).map (fun p => (f p.1, p.2))) :=
  ⟨fun it => rfl, fun it => rfl, fun t => rfl,
   fun ι V V2 f it => ⟨rfl, fun st => rfl⟩⟩

/-- C10: deserializing a tagged value runs the payload type's deserialization
against the engine wrapped in the same tag variant; success wraps the produced
value back in the same tag, failure propagates the inner error unchanged, and
in-place deserialization writes through into the payload while the destination
keeps its tag variant. -/
theorem claim10_tagged_deserialize {Q : DP} {τ : Type} (m : Mode)
    (deT : Deserializer Q → Except Q.Err τ)
    (deTip : Deserializer Q → τ → Except Q.Err τ) (d : Deserializer Q) :
    (∀ t, deT (wrapDeserializer m d) = .ok t → taggedDeserialize m deT d = .ok (m, t)) ∧
    (∀ e, deT (wrapDeserializer m d) = .error e →
      taggedDeserialize m deT d = .error e) ∧
    (taggedDeserialize m deT d = (deT (wrapDeserializer m d)).map (fun t => (m, t))) ∧
    (∀ (p : Mode × τ) t, deTip (wrapDeserializer m d) p.2 = .ok t →
      taggedDeserializeInPlace m deTip d p = .ok (m, t)) ∧
    (∀ (p : Mode × τ), p.1 = m → ∀ r, taggedDeserializeInPlace m deTip d p = .ok r →
      r.1 = p.1) :=
  ⟨fun t h => by rw [taggedDeserialize, h]; rfl,
   fun e h => by rw [taggedDeserialize, h]; rfl,
   rfl,
   fun p t h => by rw [taggedDeserializeInPlace, h]; rfl,
   fun p hp r hr => by
     rw [taggedDeserializeInPlace] at hr
     obtain ⟨t, _, rfl⟩ := exceptMap_eq_ok hr
     exact hp.symm⟩

/-- Witness for C10: deserializing a `Readable`-tagged value through the
trivial read-side engine succeeds and returns the payload tagged
`Readable`. -/
theorem claim10_witness :
    taggedDeserialize Mode.readable (fun d => d.deserialize_bool trivVisitor)
        trivDeser
      = .ok (Mode.readable, 0) :=
  (claim10_tagged_deserialize Mode.readable
    (fun d => d.deserialize_bool trivVisitor)
    (fun d _ => d.deserialize_bool trivVisitor) trivDeser).1 0 rfl
